import Mathlib

/-!
Verification of the comparison-slider / style-reconciliation core of the
vue-maplibre-compare repository.

The development shallowly embeds the TypeScript source:

* `useStyleCompare` (both the plain variant in `src/use/useStyleCompare.ts`
  and the setTiles-capable variant) as pure functions from an old style, a
  new style and a live-map state to the ordered trace of map-engine calls
  they issue (`MapOp`), threading the live-map state through the calls.
* `useMapCompare` (the slider/clip controller) as a state machine over an
  explicit session-state record, with drag events and the document-level
  listener set modelled explicitly.
* the layer-ordering engine (`updateLayerOrdering`) as a function to the
  trace of `moveLayer` calls.
* the viewport synchronisation wirings as small event-queue machines.

JavaScript data idioms are modelled explicitly: objects with string keys are
insertion-ordered association lists, `new Set` / `Array.from` round-trips are
first-occurrence deduplication, and `undefined` is `Option.none`.
-/

namespace MapCompareVerify

/-- JS `Array.from(new Set(xs))`: deduplicate keeping the first occurrence of
each element, preserving insertion order (later duplicates are dropped). -/
def jsSetList : List String → List String
  | [] => []
  | x :: xs => x :: (jsSetList xs).filter (fun y => decide (y ≠ x))

/-- Key lookup in a JS object modelled as an insertion-ordered association
list (first binding wins, as JS object keys are unique). -/
def lookupKey (m : List (String × α)) (k : String) : Option α :=
  (m.find? (fun p => p.1 == k)).map Prod.snd

/-- Embeds `Object.keys`. -/
def objKeys (m : List (String × α)) : List String :=
  m.map Prod.fst

/-- A style-language property value (paint/layout entry, filter expression),
kept opaque as its JSON serialisation; `JSON.stringify` comparison in the
source is therefore structural equality here. -/
abbrev PropValue := String

/-- A source definition as far as the reconciler inspects it: its `type`
tag and its optional `tiles` URL-template array (`none` models a source
definition without a `tiles` property, e.g. a TileJSON `url` raster source). -/
structure SourceDef where
  type : String
  tiles : Option (List String)
deriving DecidableEq, Repr

/-- A layer definition: identifier, optional source reference, optional
paint/layout property maps (insertion-ordered) and optional filter. -/
structure LayerDef where
  id : String
  source : Option String
  paint : Option (List (String × PropValue))
  layout : Option (List (String × PropValue))
  filter : Option PropValue
deriving DecidableEq, Repr

/-- A style description: sources keyed by identifier plus an ordered layer
list (maplibre `StyleSpecification`, restricted to the fields the
reconciler reads). -/
structure StyleSpec where
  sources : List (String × SourceDef)
  layers : List LayerDef
deriving DecidableEq, Repr

/-- One mutation call issued to the live map engine. -/
inductive MapOp where
  | removeLayer (id : String)
  | removeSource (id : String)
  | addSource (id : String) (sdef : SourceDef)
  | setTiles (id : String) (urls : List String)
  | addLayer (l : LayerDef)
  | setPaintProperty (id : String) (key : String) (v : PropValue)
  | setLayoutProperty (id : String) (key : String) (v : PropValue)
  | setFilter (id : String) (f : Option PropValue)
deriving DecidableEq, Repr

/-- The live map's style state: the layers (paint order) and sources
currently present on the map. -/
structure MapState where
  layers : List LayerDef
  sources : List (String × SourceDef)
deriving DecidableEq, Repr

/-- Embeds `map.getLayer(id)`. -/
def MapState.getLayer (st : MapState) (id : String) : Option LayerDef :=
  st.layers.find? (fun l => l.id == id)

/-- Embeds `map.getSource(id)`. -/
def MapState.getSource (st : MapState) (id : String) : Option SourceDef :=
  lookupKey st.sources id

/-- Set (or append) a key in an insertion-ordered property map. -/
def setKey (m : List (String × α)) (k : String) (v : α) : List (String × α) :=
  if (m.find? (fun p => p.1 == k)).isSome then
    m.map (fun p => if p.1 == k then (k, v) else p)
  else m ++ [(k, v)]

/-- Engine semantics of one mutation call on the live map state. -/
def applyOp (st : MapState) : MapOp → MapState
  | .removeLayer id => { st with layers := st.layers.filter (fun l => decide (l.id ≠ id)) }
  | .removeSource id => { st with sources := st.sources.filter (fun p => decide (p.1 ≠ id)) }
  | .addSource id d => { st with sources := st.sources ++ [(id, d)] }
  | .setTiles id urls =>
      { st with sources :=
          st.sources.map (fun p => if p.1 = id then (p.1, { p.2 with tiles := some urls }) else p) }
  | .addLayer l => { st with layers := st.layers ++ [l] }
  | .setPaintProperty id k v =>
      { st with layers :=
          st.layers.map (fun l =>
            if l.id = id then { l with paint := some (setKey (l.paint.getD []) k v) } else l) }
  | .setLayoutProperty id k v =>
      { st with layers :=
          st.layers.map (fun l =>
            if l.id = id then { l with layout := some (setKey (l.layout.getD []) k v) } else l) }
  | .setFilter id f =>
      { st with layers := st.layers.map (fun l => if l.id = id then { l with filter := f } else l) }

/-- Apply a trace of mutation calls in order. -/
def applyMapOps (st : MapState) (ops : List MapOp) : MapState :=
  ops.foldl applyOp st

/-- Run one reconciliation phase: for each item, compute the calls it issues
against the current live state, apply them, and continue with the next item
(the source's `forEach` loops observe the map as already mutated by earlier
iterations). -/
def phaseFold (f : MapState → α → List MapOp) : MapState → List α → List MapOp × MapState
  | st, [] => ([], st)
  | st, a :: as =>
    (f st a ++ (phaseFold f (applyMapOps st (f st a)) as).1,
     (phaseFold f (applyMapOps st (f st a)) as).2)

/-- Like `phaseFold` but a step may throw (a JS `TypeError`); the loop stops
at the first throw and nothing after it runs. -/
def phaseFoldE (f : MapState → α → Except Unit (List MapOp)) :
    MapState → List α → List MapOp × MapState × Bool
  | st, [] => ([], st, false)
  | st, a :: as =>
    match f st a with
    | .error _ => ([], st, true)
    | .ok ops =>
      (ops ++ (phaseFoldE f (applyMapOps st ops) as).1,
       (phaseFoldE f (applyMapOps st ops) as).2.1,
       (phaseFoldE f (applyMapOps st ops) as).2.2)

/-- Embeds `sourcesToAdd`: keys of the new style absent from the current style
(`Array.from(newSourceKeys).filter((key) => !currentSourceKeys.has(key))`). -/
def sourcesToAdd (currentStyle newStyle : StyleSpec) : List String :=
  (jsSetList (objKeys newStyle.sources)).filter
    (fun k => decide (k ∉ objKeys currentStyle.sources))

/-- Embeds `sourcesToRemove`: keys of the current style absent from the new style. -/
def sourcesToRemove (currentStyle newStyle : StyleSpec) : List String :=
  (jsSetList (objKeys currentStyle.sources)).filter
    (fun k => decide (k ∉ objKeys newStyle.sources))

/-- Dependent-layer removal: for one layer of the current style, remove it
if it references a source scheduled for removal and is still on the map.
`'source' in layer && layer.source && sourcesToRemove.includes(layer.source)`:
the middle conjunct is JS truthiness, so an empty-string source reference is
skipped. -/
def depLayerRemovalStep (toRemove : List String) (st : MapState) (layer : LayerDef) :
    List MapOp :=
  match layer.source with
  | some s =>
      if s ≠ "" ∧ s ∈ toRemove then
        if (st.getLayer layer.id).isSome then [.removeLayer layer.id] else []
      else []
  | none => []

/-- Source removal: `if (targetMapInstance.getSource(sourceId)) removeSource`. -/
def sourceRemovalStep (st : MapState) (sourceId : String) : List MapOp :=
  if (st.getSource sourceId).isSome then [.removeSource sourceId] else []

/-- Source addition, plain variant: add the new style's definition verbatim
when present. -/
def sourceAddStep (newStyle : StyleSpec) (_st : MapState) (sourceId : String) : List MapOp :=
  match lookupKey newStyle.sources sourceId with
  | some d => [.addSource sourceId d]
  | none => []

/-- Source addition, setTiles-capable variant: additionally skips a source
already present on the map. -/
def sourceAddStepChecked (newStyle : StyleSpec) (st : MapState) (sourceId : String) :
    List MapOp :=
  match lookupKey newStyle.sources sourceId with
  | some d => if (st.getSource sourceId).isSome then [] else [.addSource sourceId d]
  | none => []

/-- Keys present in both styles
(`Array.from(newSourceKeys).filter((key) => currentSourceKeys.has(key))`). -/
def existingSourceKeys (currentStyle newStyle : StyleSpec) : List String :=
  (jsSetList (objKeys newStyle.sources)).filter
    (fun k => decide (k ∈ objKeys currentStyle.sources))

/-- The tile-URL update check for one shared source key (setTiles-capable
variant).  Faithful to the source: after the raster/raster guard it reads
`newUrls.length` and `currentUrls.length` unconditionally, so a missing
`tiles` array on either side throws a `TypeError` (modelled as `.error`).
`tilesHaveChanged` is a length difference or any positional difference, and
the live `setTiles` call is guarded by the live source existing with raster
type. -/
def tileUpdateStep (currentStyle newStyle : StyleSpec) (st : MapState) (k : String) :
    Except Unit (List MapOp) :=
  match lookupKey newStyle.sources k, lookupKey currentStyle.sources k with
  | some nd, some cd =>
    if nd.type = "raster" ∧ cd.type = "raster" then
      match nd.tiles with
      | none => .error ()
      | some nu =>
        match cd.tiles with
        | none => .error ()
        | some cu =>
          let tilesHaveChanged :=
            nu.length ≠ cu.length ∨
              0 < (nu.enum.filter (fun p => decide (some p.2 ≠ cu.get? p.1))).length
          if tilesHaveChanged then
            match st.getSource k with
            | some live => .ok (if live.type = "raster" then [.setTiles k nu] else [])
            | none => .ok []
          else .ok []
    else .ok []
  | _, _ => .ok []

/-- Embeds `layersToAdd`: layer ids of the new style absent from the current style. -/
def layersToAdd (currentStyle newStyle : StyleSpec) : List String :=
  (jsSetList (newStyle.layers.map LayerDef.id)).filter
    (fun i => decide (i ∉ currentStyle.layers.map LayerDef.id))

/-- Embeds `layersToRemove`: layer ids of the current style absent from the new style. -/
def layersToRemove (currentStyle newStyle : StyleSpec) : List String :=
  (jsSetList (currentStyle.layers.map LayerDef.id)).filter
    (fun i => decide (i ∉ newStyle.layers.map LayerDef.id))

/-- Plain layer removal: `if (getLayer(layerId)) removeLayer(layerId)`. -/
def layerRemovalStep (st : MapState) (layerId : String) : List MapOp :=
  if (st.getLayer layerId).isSome then [.removeLayer layerId] else []

/-- Layer addition: the new style's layers in order, those whose id is in
`layersToAdd`. -/
def layerAddStep (toAdd : List String) (_st : MapState) (layer : LayerDef) : List MapOp :=
  if layer.id ∈ toAdd then [.addLayer layer] else []

/-- Property patch for one new-style layer that also exists in the current
style: key-by-key paint/layout sets and a wholesale filter replacement,
each gated by a `JSON.stringify` comparison against the live layer. -/
def layerPatchStep (currentLayerIds : List String) (st : MapState) (newLayer : LayerDef) :
    List MapOp :=
  if newLayer.id ∈ currentLayerIds then
    match st.getLayer newLayer.id with
    | some currentLayer =>
        (match newLayer.paint with
         | some np =>
             if currentLayer.paint ≠ some np then
               np.map (fun p => MapOp.setPaintProperty newLayer.id p.1 p.2)
             else []
         | none => []) ++
        (match newLayer.layout with
         | some nl =>
             if currentLayer.layout ≠ some nl then
               nl.map (fun p => MapOp.setLayoutProperty newLayer.id p.1 p.2)
             else []
         | none => []) ++
        (match newLayer.filter with
         | some nf =>
             if currentLayer.filter ≠ some nf then [MapOp.setFilter newLayer.id (some nf)]
             else []
         | none => [])
    | none => []
  else []

/-- The result of one reconciliation run: the ordered trace of engine calls
issued, the final live-map state, and whether the run aborted with a thrown
`TypeError`. -/
structure ReconcileRun where
  ops : List MapOp
  state : MapState
  threw : Bool
deriving DecidableEq, Repr

namespace StyleComparePlain

/-- Phase 1 of `updateStyle` (both variants): remove the current style's
layers that reference a source scheduled for removal. -/
def phase1 (currentStyle newStyle : StyleSpec) (st0 : MapState) : List MapOp × MapState :=
  phaseFold (depLayerRemovalStep (sourcesToRemove currentStyle newStyle)) st0
    currentStyle.layers

/-- Phase 2: remove the sources scheduled for removal. -/
def phase2 (currentStyle newStyle : StyleSpec) (st0 : MapState) : List MapOp × MapState :=
  phaseFold sourceRemovalStep (phase1 currentStyle newStyle st0).2
    (sourcesToRemove currentStyle newStyle)

/-- Phase 3 (plain variant): add the new sources. -/
def phase3 (currentStyle newStyle : StyleSpec) (st0 : MapState) : List MapOp × MapState :=
  phaseFold (sourceAddStep newStyle) (phase2 currentStyle newStyle st0).2
    (sourcesToAdd currentStyle newStyle)

/-- Phase 5: remove the layers whose id disappeared from the style. -/
def phase5 (currentStyle newStyle : StyleSpec) (st0 : MapState) : List MapOp × MapState :=
  phaseFold layerRemovalStep (phase3 currentStyle newStyle st0).2
    (layersToRemove currentStyle newStyle)

/-- Phase 6: add the layers new to the style, in new-style order. -/
def phase6 (currentStyle newStyle : StyleSpec) (st0 : MapState) : List MapOp × MapState :=
  phaseFold (layerAddStep (layersToAdd currentStyle newStyle))
    (phase5 currentStyle newStyle st0).2 newStyle.layers

/-- Phase 7: patch properties of the layers present in both styles. -/
def phase7 (currentStyle newStyle : StyleSpec) (st0 : MapState) : List MapOp × MapState :=
  phaseFold (layerPatchStep (currentStyle.layers.map LayerDef.id))
    (phase6 currentStyle newStyle st0).2 newStyle.layers

/-- Embeds `updateStyle` of `src/use/useStyleCompare.ts` (the variant without
tile URL updates), as the trace of engine calls it issues against live
state `st0`, given the stored baseline `currentStyle` and the caller's
`newStyle`. -/
def updateStyle (currentStyle newStyle : StyleSpec) (st0 : MapState) : ReconcileRun :=
  ⟨(phase1 currentStyle newStyle st0).1 ++ (phase2 currentStyle newStyle st0).1 ++
      (phase3 currentStyle newStyle st0).1 ++ (phase5 currentStyle newStyle st0).1 ++
      (phase6 currentStyle newStyle st0).1 ++ (phase7 currentStyle newStyle st0).1,
    (phase7 currentStyle newStyle st0).2, false⟩

end StyleComparePlain

namespace StyleCompareTiles

/-- Phase 1 of the setTiles-capable `updateStyle`: remove the current
style's layers that reference a source scheduled for removal. -/
def phase1 (currentStyle newStyle : StyleSpec) (st0 : MapState) : List MapOp × MapState :=
  phaseFold (depLayerRemovalStep (sourcesToRemove currentStyle newStyle)) st0
    currentStyle.layers

/-- Phase 2: remove the sources scheduled for removal. -/
def phase2 (currentStyle newStyle : StyleSpec) (st0 : MapState) : List MapOp × MapState :=
  phaseFold sourceRemovalStep (phase1 currentStyle newStyle st0).2
    (sourcesToRemove currentStyle newStyle)

/-- Phase 3 (setTiles-capable variant): add the new sources, skipping ones
already on the map. -/
def phase3 (currentStyle newStyle : StyleSpec) (st0 : MapState) : List MapOp × MapState :=
  phaseFold (sourceAddStepChecked newStyle) (phase2 currentStyle newStyle st0).2
    (sourcesToAdd currentStyle newStyle)

/-- Phase 4: the tile-URL update scan over the source keys shared by both
styles; can throw. -/
def phase4 (currentStyle newStyle : StyleSpec) (st0 : MapState) :
    List MapOp × MapState × Bool :=
  phaseFoldE (tileUpdateStep currentStyle newStyle) (phase3 currentStyle newStyle st0).2
    (existingSourceKeys currentStyle newStyle)

/-- Phase 5: remove the layers whose id disappeared from the style. -/
def phase5 (currentStyle newStyle : StyleSpec) (st0 : MapState) : List MapOp × MapState :=
  phaseFold layerRemovalStep (phase4 currentStyle newStyle st0).2.1
    (layersToRemove currentStyle newStyle)

/-- Phase 6: add the layers new to the style, in new-style order. -/
def phase6 (currentStyle newStyle : StyleSpec) (st0 : MapState) : List MapOp × MapState :=
  phaseFold (layerAddStep (layersToAdd currentStyle newStyle))
    (phase5 currentStyle newStyle st0).2 newStyle.layers

/-- Phase 7: patch properties of the layers present in both styles. -/
def phase7 (currentStyle newStyle : StyleSpec) (st0 : MapState) : List MapOp × MapState :=
  phaseFold (layerPatchStep (currentStyle.layers.map LayerDef.id))
    (phase6 currentStyle newStyle st0).2 newStyle.layers

/-- Embeds `updateStyle` of the setTiles-capable `useStyleCompare` variant:
the plain variant's phases plus the tile-URL update pass; when that pass
throws, every later phase is cut. -/
def updateStyle (currentStyle newStyle : StyleSpec) (st0 : MapState) : ReconcileRun :=
  if (phase4 currentStyle newStyle st0).2.2 then
    ⟨(phase1 currentStyle newStyle st0).1 ++ (phase2 currentStyle newStyle st0).1 ++
        (phase3 currentStyle newStyle st0).1 ++ (phase4 currentStyle newStyle st0).1,
      (phase4 currentStyle newStyle st0).2.1, true⟩
  else
    ⟨(phase1 currentStyle newStyle st0).1 ++ (phase2 currentStyle newStyle st0).1 ++
        (phase3 currentStyle newStyle st0).1 ++ (phase4 currentStyle newStyle st0).1 ++
        (phase5 currentStyle newStyle st0).1 ++ (phase6 currentStyle newStyle st0).1 ++
        (phase7 currentStyle newStyle st0).1,
      (phase7 currentStyle newStyle st0).2, false⟩

end StyleCompareTiles

namespace BaselineStore

/-- The caller-visible heap of style objects: a JS object reference is an
index into this heap, so aliasing and external mutation are explicit. -/
abbrev Heap := List StyleSpec

/-- Embeds `currentStyleA = newStyle` (plain `useStyleCompare` variant): the stored
baseline is the caller's reference itself. -/
def storeBaselinePlain (r : Nat) : Nat := r

/-- Embeds `currentStyleA = cloneDeep(newStyle)` (setTiles-capable variant): the
stored baseline is a deep copy of the referenced value, detached from the
heap. -/
def storeBaselineClone (h : Heap) (r : Nat) : StyleSpec :=
  (h.get? r).getD ⟨[], []⟩

/-- External mutation of the caller's style object after `updateStyle`
returned: overwrite the referenced heap cell. -/
def mutateStyle (h : Heap) (r : Nat) (v : StyleSpec) : Heap :=
  h.set r v

/-- Embeds `getCurrentStyle` when the baseline is a stored reference (plain
variant): dereference the heap. -/
def getCurrentStylePlain (h : Heap) (baseline : Nat) : StyleSpec :=
  (h.get? baseline).getD ⟨[], []⟩

/-- Embeds `getCurrentStyle` when the baseline is a stored deep copy
(setTiles-capable variant): the copy itself, independent of the heap. -/
def getCurrentStyleClone (_h : Heap) (baseline : StyleSpec) : StyleSpec :=
  baseline

end BaselineStore

namespace UseMapCompare

/-- A cached `getBoundingClientRect` result. -/
structure Bounds where
  width : ℚ
  height : ℚ
  left : ℚ
  top : ℚ
deriving DecidableEq, Repr

/-- A CSS `rect(top, right, bottom, left)` clip region: visible points are
`left ≤ x ≤ right ∧ top ≤ y ≤ bottom` in container coordinates. -/
structure ClipRect where
  top : ℚ
  right : ℚ
  bottom : ℚ
  left : ℚ
deriving DecidableEq, Repr

/-- The CSS length `999em` used by the source as an effectively unbounded
clip edge, at the browser-default font size of 16px. -/
def em999 : ℚ := 999 * 16

/-- The resolved `useMapCompare` options (`orientation`, `mousemove`). -/
structure CompareOptions where
  isHorizontal : Bool
  mousemove : Bool
deriving DecidableEq, Repr

/-- The browser event emitter of `useMapCompare`: event name to handler
list; handlers are opaque ids. -/
structure EventEmitter where
  events : List (String × List Nat)
deriving DecidableEq, Repr

/-- Embeds `EventEmitter.on`: append the handler to the (possibly new) list. -/
def EventEmitter.on (e : EventEmitter) (type : String) (fn : Nat) : EventEmitter :=
  let handlers := (lookupKey e.events type).getD []
  ⟨setKey e.events type (handlers ++ [fn])⟩

/-- Embeds `EventEmitter.off`: remove the first occurrence of the handler; drop the
event entry when its list becomes empty. -/
def EventEmitter.off (e : EventEmitter) (type : String) (fn : Nat) : EventEmitter :=
  match lookupKey e.events type with
  | none => e
  | some handlers =>
    if fn ∈ handlers then
      let handlers1 := handlers.erase fn
      if handlers1 = [] then ⟨e.events.filter (fun p => decide (p.1 ≠ type))⟩
      else ⟨setKey e.events type handlers1⟩
    else e

/-- The handlers `emit` would invoke, in registration order. -/
def EventEmitter.handlersFor (e : EventEmitter) (type : String) : List Nat :=
  (lookupKey e.events type).getD []

/-- The whole observable state of one `useMapCompare` session: the reactive
refs, the closure-local flags, every listener the session attaches
(document-level drag listeners, swiper listeners, map-container mousemove
listeners, engine resize/sync subscriptions), the style side effects on the
DOM, the emitter, and the log of slide-end handler invocations. -/
structure CompareState where
  isInitialized : Bool
  swiper : Bool
  controlContainer : Bool
  bounds : Option Bounds
  currentPosition : Option ℚ
  controlTransform : Option ℚ
  clipA : Option ClipRect
  clipB : Option ClipRect
  clearSync : Bool
  resizeHandler : Bool
  docMouseMove : Bool
  docMouseUp : Bool
  docTouchMove : Bool
  docTouchEnd : Bool
  swiperListeners : Bool
  mapMouseMoveListeners : Bool
  bodySelectSuppressed : Bool
  controlPointerEvents : Option String
  swiperPointerEvents : Option String
  emitter : EventEmitter
  eventLog : List (Nat × Option ℚ)
deriving DecidableEq, Repr

/-- A session that has never been initialized. -/
def freshState : CompareState where
  isInitialized := false
  swiper := false
  controlContainer := false
  bounds := none
  currentPosition := none
  controlTransform := none
  clipA := none
  clipB := none
  clearSync := false
  resizeHandler := false
  docMouseMove := false
  docMouseUp := false
  docTouchMove := false
  docTouchEnd := false
  swiperListeners := false
  mapMouseMoveListeners := false
  bodySelectSuppressed := false
  controlPointerEvents := none
  swiperPointerEvents := none
  emitter := ⟨[]⟩
  eventLog := []

/-- Embeds `setPosition(x)`: no-op unless bounds and the control container exist;
otherwise clamp with `Math.min(x, limit)` only, move the boundary element,
and clip both maps. -/
def setPosition (opts : CompareOptions) (x : ℚ) (st : CompareState) : CompareState :=
  match st.bounds with
  | none => st
  | some b =>
    if st.controlContainer then
      let limit := if opts.isHorizontal then b.height else b.width
      let posX := min x limit
      let cA : ClipRect :=
        if opts.isHorizontal then ⟨0, em999, posX, 0⟩ else ⟨0, posX, b.height, 0⟩
      let cB : ClipRect :=
        if opts.isHorizontal then ⟨posX, em999, b.height, 0⟩ else ⟨0, em999, b.height, posX⟩
      { st with controlTransform := some posX
                clipA := some cA
                clipB := some cB
                currentPosition := some posX }
    else st

/-- A pointer event as the handlers read it: whether it carries `touches`,
and the client coordinates. -/
structure PointerEvent where
  touches : Bool
  clientX : ℚ
  clientY : ℚ
deriving DecidableEq, Repr

/-- Embeds `getX`: pointer offset inside the container, clamped to `[0, width]`
(with `?? 0` defaults when bounds are null). -/
def getX (st : CompareState) (e : PointerEvent) : ℚ :=
  let left := (st.bounds.map Bounds.left).getD 0
  let w := (st.bounds.map Bounds.width).getD 0
  min (max (e.clientX - left) 0) w

/-- Embeds `getY`: pointer offset inside the container, clamped to `[0, height]`. -/
def getY (st : CompareState) (e : PointerEvent) : ℚ :=
  let top := (st.bounds.map Bounds.top).getD 0
  let h := (st.bounds.map Bounds.height).getD 0
  min (max (e.clientY - top) 0) h

/-- Embeds `onMove`: under the `mousemove` option it first writes `pointerEvents`
through non-null assertions (a `TypeError`, modelled as `.error`, if the
elements are gone), then applies the drag-clamped coordinate. -/
def onMove (opts : CompareOptions) (e : PointerEvent) (st : CompareState) :
    Except Unit CompareState :=
  if opts.mousemove then
    if st.controlContainer ∧ st.swiper then
      let pe := if e.touches then "auto" else "none"
      let st1 := { st with controlPointerEvents := some pe, swiperPointerEvents := some pe }
      .ok (setPosition opts
        (if opts.isHorizontal then getY st1 e else getX st1 e) st1)
    else .error ()
  else
    .ok (setPosition opts
      (if opts.isHorizontal then getY st e else getX st e) st)

/-- Append one slideend emission to the log: every registered handler is
invoked, in order, with the current position payload. -/
def emitSlideend (st : CompareState) : CompareState :=
  { st with eventLog :=
      st.eventLog ++ (st.emitter.handlersFor "slideend").map (fun h => (h, st.currentPosition)) }

/-- Embeds `onMouseUp`: detach the document drag listeners, restore text selection,
emit `slideend` with the current position. -/
def onMouseUp (st : CompareState) : CompareState :=
  emitSlideend { st with docMouseMove := false, docMouseUp := false, bodySelectSuppressed := false }

/-- Embeds `onTouchEnd`: the touch counterpart of `onMouseUp`. -/
def onTouchEnd (st : CompareState) : CompareState :=
  emitSlideend { st with docTouchMove := false, docTouchEnd := false, bodySelectSuppressed := false }

/-- Embeds `onDown`: suppress text selection and attach the document-level drag
listeners matching the input kind. -/
def onDown (e : PointerEvent) (st : CompareState) : CompareState :=
  let st1 := { st with bodySelectSuppressed := true }
  if e.touches then { st1 with docTouchMove := true, docTouchEnd := true }
  else { st1 with docMouseMove := true, docMouseUp := true }

/-- The `container` argument of `useMapCompare`: a selector string, an
element, or null. -/
inductive ContainerArg where
  | selector (s : String)
  | element
  | nullContainer
deriving DecidableEq, Repr

/-- The body of `initialize` after the container resolved: set the
initialized flag, build the control container and swiper, cache map B's
bounding rectangle, apply the midpoint position, start viewport sync,
attach the resize handler, the optional map-container mousemove listeners
and the swiper drag listeners. -/
def initBody (opts : CompareOptions) (rectB : Bounds) (st : CompareState) : CompareState :=
  let st1 := { st with isInitialized := true
                       controlContainer := true
                       swiper := true
                       bounds := some rectB }
  let startPos := (if opts.isHorizontal then rectB.height else rectB.width) / 2
  let st2 := setPosition opts startPos st1
  { st2 with clearSync := true
             resizeHandler := true
             mapMouseMoveListeners := opts.mousemove
             swiperListeners := true }

/-- Embeds `initialize()`: a silent no-op when already initialized or when the
container argument is falsy (null, or the empty selector string); resolving
a selector that matches nothing throws `Invalid container element for map
compare.` before any mutation; otherwise runs `initBody`.  The result pairs
the state with the thrown message, if any. -/
def initSession (opts : CompareOptions) (dom : String → Bool) (rectB : Bounds)
    (container : ContainerArg) (st : CompareState) : CompareState × Option String :=
  if st.isInitialized then (st, none)
  else
    match container with
    | .nullContainer => (st, none)
    | .element => (initBody opts rectB st, none)
    | .selector s =>
        if s = "" then (st, none)
        else if dom s then (initBody opts rectB st, none)
        else (st, some "Invalid container element for map compare.")

/-- Embeds `unmount()`: no-op when not initialized; otherwise stop viewport sync,
detach the resize handler, clear both maps' clips and their mousemove
listeners, detach the swiper listeners, remove the control container, and
null the refs.  The document-level drag listeners, the suppressed text
selection and the emitter registrations are not touched. -/
def unmount (st : CompareState) : CompareState :=
  if st.isInitialized then
    { st with isInitialized := false
              clearSync := false
              resizeHandler := false
              clipA := none
              clipB := none
              mapMouseMoveListeners := false
              swiperListeners := false
              controlContainer := false
              swiper := false
              controlPointerEvents := none
              swiperPointerEvents := none
              bounds := none
              currentPosition := none
              controlTransform := none }
  else st

/-- Embeds `setSlider(x)` of the public API: `setPosition(x)`. -/
def setSlider (opts : CompareOptions) (x : ℚ) (st : CompareState) : CompareState :=
  setPosition opts x st

/-- Public `on(type, fn)`. -/
def onEvent (type : String) (fn : Nat) (st : CompareState) : CompareState :=
  { st with emitter := st.emitter.on type fn }

/-- Public `off(type, fn)`. -/
def offEvent (type : String) (fn : Nat) (st : CompareState) : CompareState :=
  { st with emitter := st.emitter.off type fn }

/-- The browser delivering a document-level `mouseup`: runs `onMouseUp` iff
that listener is currently attached. -/
def dispatchDocMouseUp (st : CompareState) : CompareState :=
  if st.docMouseUp then onMouseUp st else st

/-- The browser delivering a document-level `mousemove`: runs `onMove` iff
that listener is currently attached. -/
def dispatchDocMouseMove (opts : CompareOptions) (e : PointerEvent) (st : CompareState) :
    Except Unit CompareState :=
  if st.docMouseMove then onMove opts e st else .ok st

end UseMapCompare

namespace LayerEngine

/-- The `layerOrder` prop: `'topmost' | 'bottommost'`. -/
inductive OrderPolicy where
  | topmost
  | bottommost
deriving DecidableEq, Repr

/-- A map handle as the ordering engine reads it: style-loaded flag and the
current style's layer list. -/
structure EngineMap where
  styleLoaded : Bool
  layers : List LayerDef
deriving DecidableEq, Repr

/-- Embeds `updateLayerOrdering` of the MapCompare component, as the ordered trace
of `moveLayer` calls it issues: no-op when the map is gone, its style is not
loaded, or the allow list is empty; otherwise the allow list (reversed for
`bottommost`) filtered to the ids present in the style. -/
def updateLayerOrdering (map : Option EngineMap) (enabledLayers : List String)
    (layerOrder : OrderPolicy) : List String :=
  match map with
  | none => []
  | some m =>
    if ¬ m.styleLoaded then []
    else if enabledLayers = [] then []
    else
      let layersInStyle := m.layers
      let orderedLayers :=
        if layerOrder = OrderPolicy.topmost then enabledLayers else enabledLayers.reverse
      orderedLayers.filter
        (fun layerId => (layersInStyle.find? (fun l => l.id == layerId)).isSome)

end LayerEngine

namespace ViewportSync

/-- A viewport transform: center, zoom, bearing, pitch. -/
structure Transform where
  centerLng : ℚ
  centerLat : ℚ
  zoom : ℚ
  bearing : ℚ
  pitch : ℚ
deriving DecidableEq, Repr

/-- Which of the two maps. -/
inductive Side where
  | A
  | B
deriving DecidableEq, Repr

/-- The other map. -/
def Side.other : Side → Side
  | .A => .B
  | .B => .A

/-- State of the two synchronized maps plus the FIFO queue of pending move
events (tagged with the map that emitted them) and the log of `jumpTo`
calls applied (target map, transform).  Engine semantics follow spec §4.1
and §6: `jumpTo` sets the target's transform and itself emits a move event
on the target. -/
structure SyncState where
  tA : Transform
  tB : Transform
  queue : List Side
  jumpLog : List (Side × Transform)
deriving DecidableEq, Repr

/-- The current transform of one side. -/
def transformOf (st : SyncState) : Side → Transform
  | .A => st.tA
  | .B => st.tB

/-- One step of the part_005 wiring (`syncMaps` with `map.on('move', ...)`
handlers and no guard): deliver the oldest pending move event; its handler
unconditionally mirrors the emitter's transform onto the other map via
`jumpTo`, and that jump emits a new move event on the jumped map, which is
enqueued. -/
def stepUnguarded (st : SyncState) : SyncState :=
  match st.queue with
  | [] => st
  | s :: rest =>
    let t := transformOf st s
    let target := s.other
    let st1 :=
      match target with
      | .A => { st with tA := t }
      | .B => { st with tB := t }
    { st1 with queue := rest ++ [target], jumpLog := st.jumpLog ++ [(target, t)] }

/-- Iterate `stepUnguarded`. -/
def runUnguarded : Nat → SyncState → SyncState
  | 0, st => st
  | n + 1, st => runUnguarded n (stepUnguarded st)

/-- Modelled from the spec: the external viewport synchroniser
(`@mapbox/mapbox-gl-sync-move`, declared but not vendored under src) per
spec §4.1 — on a move event it mirrors the transform onto the other map
with the move handlers detached for the duration of the jump, so the
secondary move event emitted by that jump is never delivered back: no new
event is enqueued for a mirroring jump. -/
def stepGuarded (st : SyncState) : SyncState :=
  match st.queue with
  | [] => st
  | s :: rest =>
    let t := transformOf st s
    let target := s.other
    let st1 :=
      match target with
      | .A => { st with tA := t }
      | .B => { st with tB := t }
    { st1 with queue := rest, jumpLog := st.jumpLog ++ [(target, t)] }

/-- Iterate `stepGuarded`. -/
def runGuarded : Nat → SyncState → SyncState
  | 0, st => st
  | n + 1, st => runGuarded n (stepGuarded st)

end ViewportSync


/-! ## Concrete session states and auxiliary predicates used by the verification -/

/-- The initialized vertical-orientation session used to exercise the public
`setSlider` API: container 100 wide and 50 tall. -/
def c1State : UseMapCompare.CompareState :=
  (UseMapCompare.initSession ⟨false, false⟩ (fun _ => true) ⟨100, 50, 0, 0⟩
    UseMapCompare.ContainerArg.element UseMapCompare.freshState).1

/-- The C2 scenario: a fresh session with one `slideend` handler (id 0),
initialized, a mouse drag started on the swiper, then `unmount()` while the
drag is in progress. -/
def c2Unmounted : UseMapCompare.CompareState :=
  UseMapCompare.unmount
    (UseMapCompare.onDown ⟨false, 50, 10⟩
      ((UseMapCompare.initSession ⟨false, false⟩ (fun _ => true) ⟨100, 50, 0, 0⟩
        UseMapCompare.ContainerArg.element
        (UseMapCompare.onEvent "slideend" 0 UseMapCompare.freshState)).1))

/-- The initialized vertical session with a 100 by 50 container used as the
C8 witness state. -/
def c8State : UseMapCompare.CompareState :=
  (UseMapCompare.initSession ⟨false, false⟩ (fun _ => true) ⟨100, 50, 0, 0⟩
    UseMapCompare.ContainerArg.element UseMapCompare.freshState).1

/-- Visibility predicate of a CSS `rect(top, right, bottom, left)` clip
region at a point in container coordinates. -/
def clipContains (r : UseMapCompare.ClipRect) (x y : ℚ) : Prop :=
  r.left ≤ x ∧ x ≤ r.right ∧ r.top ≤ y ∧ y ≤ r.bottom

instance (r : UseMapCompare.ClipRect) (x y : ℚ) : Decidable (clipContains r x y) := by
  unfold clipContains
  infer_instance

/-- Predicate on a call: it does not target source `k`. -/
def opSparesSource (k : String) : MapOp → Prop
  | .removeSource k2 => k2 ≠ k
  | .addSource k2 _ => k2 ≠ k
  | .setTiles k2 _ => k2 ≠ k
  | _ => True

end MapCompareVerify


namespace MapCompareVerify

/-! ## General lemmas about the shared JS-object helpers -/

theorem mem_jsSetList {a : String} : ∀ {l : List String}, a ∈ jsSetList l ↔ a ∈ l := by
  intro l
  induction l with
  | nil => simp [jsSetList]
  | cons x xs ih =>
    simp only [jsSetList, List.mem_cons, List.mem_filter, decide_eq_true_eq, ih]
    by_cases hax : a = x <;> simp [hax]

theorem nodup_jsSetList : ∀ {l : List String}, (jsSetList l).Nodup := by
  intro l
  induction l with
  | nil => simp [jsSetList]
  | cons x xs ih =>
    simp only [jsSetList, List.nodup_cons, List.mem_filter, decide_eq_true_eq]
    exact ⟨fun h => h.2 rfl, List.Nodup.filter _ ih⟩


theorem lookupKey_eq_some_mem {m : List (String × α)} {k : String} {v : α}
    (h : lookupKey m k = some v) : k ∈ objKeys m := by
  unfold lookupKey at h
  obtain ⟨p, hp, hpv⟩ := Option.map_eq_some'.mp h
  have hk := List.find?_some hp
  have hmem := List.mem_of_find?_eq_some hp
  simp only [beq_iff_eq] at hk
  subst hk
  exact List.mem_map_of_mem Prod.fst hmem

/-! ## Claim theorems -/

section ClaimC1

/-- C1 counterexample: on an active vertical session with extent 100,
`setSlider(-5)` applies `-5` itself — `setPosition` clamps only with
`Math.min(x, limit)`, so the boundary position escapes `[0, extent]` and the
claimed lower clamp to 0 does not happen. -/
theorem setSlider_no_lower_clamp_cex :
    (UseMapCompare.setSlider ⟨false, false⟩ (-5) c1State).currentPosition = some (-5) ∧
      ((-5 : ℚ) < 0) := by
  constructor
  · decide
  · norm_num

/-- C1 (amended): `setSlider(x)` applies `min x extent` — clamping from
above at the container extent but passing `x < 0` through unchanged — while
drag input is clamped to `[0, extent]` on both sides by `getX`/`getY`
before `setPosition` is called. -/
theorem setSlider_clamp_behavior
    (opts : UseMapCompare.CompareOptions) (st : UseMapCompare.CompareState)
    (b : UseMapCompare.Bounds) (e : UseMapCompare.PointerEvent) (x : ℚ)
    (hb : st.bounds = some b) (hc : st.controlContainer = true)
    (hw : 0 ≤ b.width) (hh : 0 ≤ b.height) :
    (UseMapCompare.setSlider opts x st).currentPosition
        = some (min x (if opts.isHorizontal then b.height else b.width)) ∧
      (0 ≤ UseMapCompare.getX st e ∧ UseMapCompare.getX st e ≤ b.width) ∧
      (0 ≤ UseMapCompare.getY st e ∧ UseMapCompare.getY st e ≤ b.height) := by
  refine ⟨?_, ⟨?_, ?_⟩, ⟨?_, ?_⟩⟩
  · unfold UseMapCompare.setSlider UseMapCompare.setPosition
    rw [hb]
    simp [hc]
  · unfold UseMapCompare.getX
    rw [hb]
    exact le_min (le_max_right _ 0) hw
  · unfold UseMapCompare.getX
    rw [hb]
    exact min_le_right _ _
  · unfold UseMapCompare.getY
    rw [hb]
    exact le_min (le_max_right _ 0) hh
  · unfold UseMapCompare.getY
    rw [hb]
    exact min_le_right _ _

/-- Witness for `setSlider_clamp_behavior` at the concrete session
`c1State`, `setSlider(250)` and a pointer at client (120, 7). -/
theorem setSlider_clamp_behavior_witness :
    (UseMapCompare.setSlider ⟨false, false⟩ 250 c1State).currentPosition
        = some (min 250 (if (⟨false, false⟩ : UseMapCompare.CompareOptions).isHorizontal
            then (50 : ℚ) else 100)) ∧
      (0 ≤ UseMapCompare.getX c1State ⟨false, 120, 7⟩ ∧
        UseMapCompare.getX c1State ⟨false, 120, 7⟩ ≤ 100) ∧
      (0 ≤ UseMapCompare.getY c1State ⟨false, 120, 7⟩ ∧
        UseMapCompare.getY c1State ⟨false, 120, 7⟩ ≤ 50) :=
  setSlider_clamp_behavior ⟨false, false⟩ c1State ⟨100, 50, 0, 0⟩ ⟨false, 120, 7⟩ 250
    (by decide) (by decide) (by norm_num) (by norm_num)

end ClaimC1

section ClaimC2

/-- C2 (code bug): `unmount()` during a drag leaves the document-level
`mouseup` listener attached and the emitter registrations intact, so the
pointer-up delivered after unmount still runs `onMouseUp`, which emits
`slideend` and invokes the registered handler (with payload `null`) — the
handler invocation log is non-empty even though the session was unmounted. -/
theorem slideend_fires_after_unmount :
    c2Unmounted.isInitialized = false ∧
      c2Unmounted.docMouseUp = true ∧
      (UseMapCompare.dispatchDocMouseUp c2Unmounted).eventLog = [(0, none)] := by
  refine ⟨by decide, by decide, by decide⟩

end ClaimC2

section ClaimC4

/-- C4 counterexample: the plain `useStyleCompare` variant stores the
caller's reference (`currentStyleA = newStyle`), so mutating the caller's
style object after `updateStyle` changes what `getCurrentStyle` returns:
with a one-cell heap holding the empty style, overwriting it with a
one-layer style makes the baseline read back the mutated value. -/
theorem baseline_alias_mutation_cex :
    BaselineStore.getCurrentStylePlain
        (BaselineStore.mutateStyle [⟨[], []⟩] 0 ⟨[], [⟨"l2", none, none, none, none⟩]⟩)
        (BaselineStore.storeBaselinePlain 0)
        = ⟨[], [⟨"l2", none, none, none, none⟩]⟩ ∧
      (⟨[], [⟨"l2", none, none, none, none⟩]⟩ : StyleSpec) ≠ ⟨[], []⟩ := by
  refine ⟨by decide, by decide⟩

/-- C4 (amended): the setTiles-capable variant stores
`cloneDeep(newStyle)`, so the baseline returned by `getCurrentStyle` is
unaffected by any later external mutation of the caller's object; the plain
variant's baseline instead tracks the mutation (it reads back exactly the
mutated value). -/
theorem baseline_deep_copy_immune
    (h : BaselineStore.Heap) (r : Nat) (v : StyleSpec) (hr : r < h.length) :
    BaselineStore.getCurrentStyleClone (BaselineStore.mutateStyle h r v)
        (BaselineStore.storeBaselineClone h r) = BaselineStore.storeBaselineClone h r ∧
      BaselineStore.getCurrentStylePlain (BaselineStore.mutateStyle h r v)
        (BaselineStore.storeBaselinePlain r) = v := by
  constructor
  · rfl
  · unfold BaselineStore.getCurrentStylePlain BaselineStore.mutateStyle
      BaselineStore.storeBaselinePlain
    rw [List.get?_set_eq]
    simp [hr]

/-- Witness for `baseline_deep_copy_immune` on a one-cell heap. -/
theorem baseline_deep_copy_immune_witness :
    BaselineStore.getCurrentStyleClone
        (BaselineStore.mutateStyle [⟨[], []⟩] 0 ⟨[("s", ⟨"raster", none⟩)], []⟩)
        (BaselineStore.storeBaselineClone [⟨[], []⟩] 0)
        = BaselineStore.storeBaselineClone [⟨[], []⟩] 0 ∧
      BaselineStore.getCurrentStylePlain
        (BaselineStore.mutateStyle [⟨[], []⟩] 0 ⟨[("s", ⟨"raster", none⟩)], []⟩)
        (BaselineStore.storeBaselinePlain 0) = ⟨[("s", ⟨"raster", none⟩)], []⟩ :=
  baseline_deep_copy_immune [⟨[], []⟩] 0 ⟨[("s", ⟨"raster", none⟩)], []⟩ (by decide)

end ClaimC4

section ClaimC6

/-- C6: resolving a string container selector that matches nothing makes
`initialize()` throw `Invalid container element for map compare.` with the
session state untouched (no boundary or overlay element built, no listener
attached); `initialize()` on an already-initialized session, or with a null
container argument, returns silently without mutating anything. -/
theorem initSession_error_and_noop
    (opts : UseMapCompare.CompareOptions) (dom : String → Bool)
    (rectB : UseMapCompare.Bounds) (st st2 : UseMapCompare.CompareState)
    (sel : String) (c : UseMapCompare.ContainerArg)
    (hsel : sel ≠ "") (hdom : dom sel = false)
    (hst : st.isInitialized = false) (hst2 : st2.isInitialized = true) :
    UseMapCompare.initSession opts dom rectB (.selector sel) st
        = (st, some "Invalid container element for map compare.") ∧
      UseMapCompare.initSession opts dom rectB c st2 = (st2, none) ∧
      UseMapCompare.initSession opts dom rectB .nullContainer st = (st, none) := by
  refine ⟨?_, ?_, ?_⟩
  · unfold UseMapCompare.initSession
    rw [hst]
    simp [hsel, hdom]
  · unfold UseMapCompare.initSession
    rw [hst2]
    simp
  · unfold UseMapCompare.initSession
    rw [hst]
    simp

/-- Witness for `initSession_error_and_noop`: empty document, selector
`#compare`, a fresh session and an already-initialized session. -/
theorem initSession_error_and_noop_witness :
    UseMapCompare.initSession ⟨false, false⟩ (fun _ => false) ⟨100, 50, 0, 0⟩
        (.selector "#compare") UseMapCompare.freshState
        = (UseMapCompare.freshState, some "Invalid container element for map compare.") ∧
      UseMapCompare.initSession ⟨false, false⟩ (fun _ => false) ⟨100, 50, 0, 0⟩
        UseMapCompare.ContainerArg.element
        { UseMapCompare.freshState with isInitialized := true }
        = ({ UseMapCompare.freshState with isInitialized := true }, none) ∧
      UseMapCompare.initSession ⟨false, false⟩ (fun _ => false) ⟨100, 50, 0, 0⟩
        .nullContainer UseMapCompare.freshState = (UseMapCompare.freshState, none) :=
  initSession_error_and_noop ⟨false, false⟩ (fun _ => false) ⟨100, 50, 0, 0⟩
    UseMapCompare.freshState { UseMapCompare.freshState with isInitialized := true }
    "#compare" UseMapCompare.ContainerArg.element
    (by decide) rfl rfl rfl

end ClaimC6

section ClaimC7

/-- C7 counterexample: with the part_005 wiring (unguarded `syncMaps` move
handlers) and a map engine whose transform jump itself emits a move event
(spec §4.1), a single user move of map A is mirrored onto B, and the
secondary move event emitted by that mirroring jump is propagated back:
the second `jumpTo` in the log targets A, the originating map, and the
event queue is again non-empty after the two steps. -/
theorem syncMaps_feedback_cex :
    (ViewportSync.runUnguarded 2
        ⟨⟨10, 20, 5, 0, 0⟩, ⟨0, 0, 1, 0, 0⟩, [ViewportSync.Side.A], []⟩).jumpLog
        = [(ViewportSync.Side.B, ⟨10, 20, 5, 0, 0⟩), (ViewportSync.Side.A, ⟨10, 20, 5, 0, 0⟩)] ∧
      (ViewportSync.runUnguarded 2
        ⟨⟨10, 20, 5, 0, 0⟩, ⟨0, 0, 1, 0, 0⟩, [ViewportSync.Side.A], []⟩).queue ≠ [] := by
  refine ⟨by decide, by decide⟩

/-- C7 (amended): the session created by `useMapCompare` delegates viewport
synchronisation to the guarded external sync routine, which suppresses the
secondary move event of its own jump; under it a single user move of map A
yields exactly one mirrored `jumpTo` (onto B), the queue drains, and the
machine is at a fixpoint — no oscillation and no propagation back to the
originating map. -/
theorem guarded_sync_single_update (t0 t1 : ViewportSync.Transform) :
    ViewportSync.runGuarded 2 ⟨t1, t0, [ViewportSync.Side.A], []⟩
        = ⟨t1, t1, [], [(ViewportSync.Side.B, t1)]⟩ ∧
      ViewportSync.stepGuarded (ViewportSync.runGuarded 2 ⟨t1, t0, [ViewportSync.Side.A], []⟩)
        = ViewportSync.runGuarded 2 ⟨t1, t0, [ViewportSync.Side.A], []⟩ := by
  constructor
  · rfl
  · rfl

end ClaimC7

section ClaimC9

/-- C9: with a non-empty allow list and a loaded style, layer ordering with
policy `topmost` issues `moveLayer` calls exactly in allow-list order and
with `bottommost` exactly in reversed order, in both cases skipping (with
no call and no error) every identifier missing from the current style. -/
theorem updateLayerOrdering_trace
    (m : LayerEngine.EngineMap) (enabledLayers : List String)
    (hne : enabledLayers ≠ []) (hl : m.styleLoaded = true) :
    (LayerEngine.updateLayerOrdering (some m) enabledLayers .topmost
        = enabledLayers.filter
            (fun layerId => (m.layers.find? (fun l => l.id == layerId)).isSome)) ∧
      (LayerEngine.updateLayerOrdering (some m) enabledLayers .bottommost
        = enabledLayers.reverse.filter
            (fun layerId => (m.layers.find? (fun l => l.id == layerId)).isSome)) ∧
      (∀ pol lid, (m.layers.find? (fun l => l.id == lid)).isSome = false →
        lid ∉ LayerEngine.updateLayerOrdering (some m) enabledLayers pol) := by
  refine ⟨?_, ?_, ?_⟩
  · unfold LayerEngine.updateLayerOrdering
    simp [hl, hne]
  · unfold LayerEngine.updateLayerOrdering
    simp [hl, hne]
  · intro pol lid hnone hmem
    unfold LayerEngine.updateLayerOrdering at hmem
    simp only [hl, hne] at hmem
    rw [if_neg not_false] at hmem
    have := List.of_mem_filter hmem
    rw [hnone] at this
    exact Bool.false_ne_true this

/-- Witness for `updateLayerOrdering_trace`: style layers `x`, `y`; allow
list `[y, x, w]`. -/
theorem updateLayerOrdering_trace_witness :
    (LayerEngine.updateLayerOrdering
        (some ⟨true, [⟨"x", none, none, none, none⟩, ⟨"y", none, none, none, none⟩]⟩)
        ["y", "x", "w"] .topmost
        = (["y", "x", "w"].filter
            (fun layerId =>
              (([⟨"x", none, none, none, none⟩,
                 ⟨"y", none, none, none, none⟩] : List LayerDef).find?
                  (fun l => l.id == layerId)).isSome))) ∧
      (LayerEngine.updateLayerOrdering
        (some ⟨true, [⟨"x", none, none, none, none⟩, ⟨"y", none, none, none, none⟩]⟩)
        ["y", "x", "w"] .bottommost
        = (["y", "x", "w"].reverse.filter
            (fun layerId =>
              (([⟨"x", none, none, none, none⟩,
                 ⟨"y", none, none, none, none⟩] : List LayerDef).find?
                  (fun l => l.id == layerId)).isSome))) ∧
      (∀ pol lid,
        (([⟨"x", none, none, none, none⟩,
           ⟨"y", none, none, none, none⟩] : List LayerDef).find?
            (fun l => l.id == lid)).isSome = false →
        lid ∉ LayerEngine.updateLayerOrdering
          (some ⟨true, [⟨"x", none, none, none, none⟩, ⟨"y", none, none, none, none⟩]⟩)
          ["y", "x", "w"] pol) :=
  updateLayerOrdering_trace
    ⟨true, [⟨"x", none, none, none, none⟩, ⟨"y", none, none, none, none⟩]⟩
    ["y", "x", "w"] (by decide) rfl

end ClaimC9

section ClaimC8


/-- C8: for every boundary position `p` in `[0, extent]` applied by
`setPosition`, at every container point map A's clip region holds exactly
the points with split-axis coordinate at most `p` and map B's exactly those
with coordinate at least `p`; hence the two regions cover the container and
overlap only on the boundary line `p`. -/
theorem setPosition_clips_complementary
    (opts : UseMapCompare.CompareOptions) (st : UseMapCompare.CompareState)
    (b : UseMapCompare.Bounds) (p x y : ℚ)
    (hb : st.bounds = some b) (hc : st.controlContainer = true)
    (hp0 : 0 ≤ p) (hpe : p ≤ (if opts.isHorizontal then b.height else b.width))
    (hx0 : 0 ≤ x) (hxw : x ≤ b.width) (hy0 : 0 ≤ y) (hyh : y ≤ b.height)
    (hwe : b.width ≤ UseMapCompare.em999) :
    ∃ ra rb,
      (UseMapCompare.setPosition opts p st).clipA = some ra ∧
      (UseMapCompare.setPosition opts p st).clipB = some rb ∧
      (clipContains ra x y ↔ (if opts.isHorizontal then y else x) ≤ p) ∧
      (clipContains rb x y ↔ p ≤ (if opts.isHorizontal then y else x)) ∧
      (clipContains ra x y ∨ clipContains rb x y) ∧
      (clipContains ra x y → clipContains rb x y →
        (if opts.isHorizontal then y else x) = p) := by
  obtain ⟨isH, mm⟩ := opts
  cases isH
  · -- vertical orientation: the split axis is x, the extent is the width
    simp only [Bool.false_eq_true, if_false] at hpe ⊢
    have hmin : min p b.width = p := min_eq_left hpe
    refine ⟨⟨0, p, b.height, 0⟩, ⟨0, UseMapCompare.em999, b.height, p⟩, ?_, ?_, ?_, ?_, ?_, ?_⟩
    · unfold UseMapCompare.setPosition
      rw [hb]
      simp [hc, hmin]
    · unfold UseMapCompare.setPosition
      rw [hb]
      simp [hc, hmin]
    · exact ⟨fun h => h.2.1, fun h => ⟨hx0, h, hy0, hyh⟩⟩
    · exact ⟨fun h => h.1, fun h => ⟨h, le_trans hxw hwe, hy0, hyh⟩⟩
    · rcases le_total x p with h | h
      · exact Or.inl ⟨hx0, h, hy0, hyh⟩
      · exact Or.inr ⟨h, le_trans hxw hwe, hy0, hyh⟩
    · intro ha hbb
      exact le_antisymm ha.2.1 hbb.1
  · -- horizontal orientation: the split axis is y, the extent is the height
    simp only [if_true] at hpe ⊢
    have hmin : min p b.height = p := min_eq_left hpe
    refine ⟨⟨0, UseMapCompare.em999, p, 0⟩, ⟨p, UseMapCompare.em999, b.height, 0⟩, ?_, ?_, ?_, ?_, ?_, ?_⟩
    · unfold UseMapCompare.setPosition
      rw [hb]
      simp [hc, hmin]
    · unfold UseMapCompare.setPosition
      rw [hb]
      simp [hc, hmin]
    · exact ⟨fun h => h.2.2.2, fun h => ⟨hx0, le_trans hxw hwe, hy0, h⟩⟩
    · exact ⟨fun h => h.2.2.1, fun h => ⟨hx0, le_trans hxw hwe, h, hyh⟩⟩
    · rcases le_total y p with h | h
      · exact Or.inl ⟨hx0, le_trans hxw hwe, hy0, h⟩
      · exact Or.inr ⟨hx0, le_trans hxw hwe, h, hyh⟩
    · intro ha hbb
      exact le_antisymm ha.2.2.2 hbb.2.2.1

/-- Witness for `setPosition_clips_complementary`: vertical session over a
100 by 50 container, boundary at 30, sample point (30, 10). -/
theorem setPosition_clips_complementary_witness :
    ∃ ra rb,
      (UseMapCompare.setPosition ⟨false, false⟩ 30 c8State).clipA = some ra ∧
      (UseMapCompare.setPosition ⟨false, false⟩ 30 c8State).clipB = some rb ∧
      (clipContains ra 30 10 ↔
        (if (⟨false, false⟩ : UseMapCompare.CompareOptions).isHorizontal
          then (10 : ℚ) else 30) ≤ 30) ∧
      (clipContains rb 30 10 ↔
        (30 : ℚ) ≤ (if (⟨false, false⟩ : UseMapCompare.CompareOptions).isHorizontal
          then (10 : ℚ) else 30)) ∧
      (clipContains ra 30 10 ∨ clipContains rb 30 10) ∧
      (clipContains ra 30 10 → clipContains rb 30 10 →
        (if (⟨false, false⟩ : UseMapCompare.CompareOptions).isHorizontal
          then (10 : ℚ) else 30) = 30) :=
  setPosition_clips_complementary ⟨false, false⟩ c8State ⟨100, 50, 0, 0⟩ 30 30 10
    (by decide) (by decide) (by norm_num) (by norm_num) (by norm_num) (by norm_num)
    (by norm_num) (by norm_num) (by norm_num [UseMapCompare.em999])

end ClaimC8

section ClaimC10

/-- If some item of the scanned list makes the throwing step fail regardless
of the live state, the whole pass reports a throw (it aborts at the first
failing item). -/
theorem phaseFoldE_threw_of_error {α : Type} {f : MapState → α → Except Unit (List MapOp)}
    {a : α} {l : List α} (ha : a ∈ l) (herr : ∀ st, f st a = .error ()) :
    ∀ st, (phaseFoldE f st l).2.2 = true := by
  induction l with
  | nil => cases ha
  | cons b bs ih =>
    intro st
    rcases List.mem_cons.mp ha with hab | hmem
    · subst hab
      simp only [phaseFoldE, herr st]
    · simp only [phaseFoldE]
      cases hfb : f st b with
      | error e => rfl
      | ok ops => simp [ih hmem]

/-- C10: when a source with the same identifier is raster-typed in both the
old and the new style but neither definition carries a `tiles` array (for
example a TileJSON `url` raster source), the setTiles-capable `updateStyle`
throws a `TypeError` while reading the length of the undefined tile list
instead of skipping the source: the tiles-changed check is not total over
valid raster source definitions. -/
theorem updateStyle_throws_on_missing_tiles
    (old new : StyleSpec) (st0 : MapState) (s : String) (od nd : SourceDef)
    (ho : lookupKey old.sources s = some od) (hn : lookupKey new.sources s = some nd)
    (hot : od.type = "raster") (hnt : nd.type = "raster")
    (hotiles : od.tiles = none) (hntiles : nd.tiles = none) :
    (StyleCompareTiles.updateStyle old new st0).threw = true := by
  have hsE : s ∈ existingSourceKeys old new := by
    unfold existingSourceKeys
    refine List.mem_filter.mpr ⟨mem_jsSetList.mpr (lookupKey_eq_some_mem hn), ?_⟩
    simpa using lookupKey_eq_some_mem ho
  have herr : ∀ st, tileUpdateStep old new st s = .error () := by
    intro st
    unfold tileUpdateStep
    rw [hn, ho]
    simp [hnt, hot, hntiles]
  have hthrew := phaseFoldE_threw_of_error hsE herr
  simp [StyleCompareTiles.updateStyle, StyleCompareTiles.phase4, hthrew]

/-- Witness for `updateStyle_throws_on_missing_tiles`: a single `url`-style
raster source `r` shared by both styles. -/
theorem updateStyle_throws_on_missing_tiles_witness :
    (StyleCompareTiles.updateStyle ⟨[("r", ⟨"raster", none⟩)], []⟩
        ⟨[("r", ⟨"raster", none⟩)], []⟩ ⟨[], [("r", ⟨"raster", none⟩)]⟩).threw = true :=
  updateStyle_throws_on_missing_tiles ⟨[("r", ⟨"raster", none⟩)], []⟩
    ⟨[("r", ⟨"raster", none⟩)], []⟩ ⟨[], [("r", ⟨"raster", none⟩)]⟩ "r"
    ⟨"raster", none⟩ ⟨"raster", none⟩ (by decide) (by decide) rfl rfl rfl rfl

end ClaimC10

/-! ## Structural lemmas about the reconciliation phases -/

section ReconcilerLemmas

/-- Every call emitted by a `phaseFold` pass comes from its step function
applied to some intermediate state and some item of the scanned list. -/
theorem phaseFold_ops_mem {α : Type} {f : MapState → α → List MapOp} :
    ∀ {l : List α} {st : MapState} {op : MapOp}, op ∈ (phaseFold f st l).1 →
      ∃ st2 a, a ∈ l ∧ op ∈ f st2 a := by
  intro l
  induction l with
  | nil => intro st op h; simp [phaseFold] at h
  | cons b bs ih =>
    intro st op h
    simp only [phaseFold, List.mem_append] at h
    rcases h with h | h
    · exact ⟨st, b, List.mem_cons_self b bs, h⟩
    · obtain ⟨st2, a, ha, hop⟩ := ih h
      exact ⟨st2, a, List.mem_cons_of_mem b ha, hop⟩

/-- Every call emitted by a throwing pass comes from a successful step on
some item of the scanned list. -/
theorem phaseFoldE_ops_mem {α : Type} {f : MapState → α → Except Unit (List MapOp)} :
    ∀ {l : List α} {st : MapState} {op : MapOp}, op ∈ (phaseFoldE f st l).1 →
      ∃ st2 a ops, a ∈ l ∧ f st2 a = .ok ops ∧ op ∈ ops := by
  intro l
  induction l with
  | nil => intro st op h; simp [phaseFoldE] at h
  | cons b bs ih =>
    intro st op h
    rw [phaseFoldE] at h
    rcases hfb : f st b with e | ops
    · rw [hfb] at h
      simp at h
    · rw [hfb] at h
      simp only [List.mem_append] at h
      rcases h with h | h
      · exact ⟨st, b, ops, List.mem_cons_self b bs, hfb, h⟩
      · obtain ⟨st2, a, ops2, ha, hf, hop⟩ := ih h
        exact ⟨st2, a, ops2, List.mem_cons_of_mem b ha, hf, hop⟩

/-- The final state of a pass is the initial state with the whole emitted
trace applied. -/
theorem phaseFold_snd_eq {α : Type} {f : MapState → α → List MapOp} :
    ∀ {l : List α} {st : MapState},
      (phaseFold f st l).2 = applyMapOps st (phaseFold f st l).1 := by
  intro l
  induction l with
  | nil => intro st; rfl
  | cons b bs ih =>
    intro st
    simp only [phaseFold, applyMapOps, List.foldl_append]
    exact ih

/-- Applying a concatenated trace is applying the pieces in order. -/
theorem applyMapOps_append (st : MapState) (a b : List MapOp) :
    applyMapOps st (a ++ b) = applyMapOps (applyMapOps st a) b := by
  simp [applyMapOps, List.foldl_append]

/-- Dependent-layer removal emits only `removeLayer` calls, targeting the
scanned layer's id. -/
theorem depLayerRemovalStep_shape {toRemove : List String} {st : MapState} {b : LayerDef}
    {op : MapOp} (h : op ∈ depLayerRemovalStep toRemove st b) :
    op = MapOp.removeLayer b.id := by
  unfold depLayerRemovalStep at h
  rcases hsrc : b.source with _ | str <;> rw [hsrc] at h
  · exact absurd h (List.not_mem_nil op)
  · replace h : op ∈ (if str ≠ "" ∧ str ∈ toRemove then
        (if (st.getLayer b.id).isSome = true then [MapOp.removeLayer b.id] else [])
      else []) := h
    by_cases h1 : str ≠ "" ∧ str ∈ toRemove
    · rw [if_pos h1] at h
      by_cases h2 : (st.getLayer b.id).isSome = true
      · rw [if_pos h2] at h
        exact List.mem_singleton.mp h
      · rw [if_neg h2] at h
        exact absurd h (List.not_mem_nil op)
    · rw [if_neg h1] at h
      exact absurd h (List.not_mem_nil op)

/-- Source removal emits only `removeSource` on the scanned key. -/
theorem sourceRemovalStep_shape {st : MapState} {k : String} {op : MapOp}
    (h : op ∈ sourceRemovalStep st k) : op = MapOp.removeSource k := by
  unfold sourceRemovalStep at h
  split at h
  · simpa using h
  · simp at h

/-- Plain source addition emits only `addSource` on the scanned key. -/
theorem sourceAddStep_shape {newStyle : StyleSpec} {st : MapState} {k : String} {op : MapOp}
    (h : op ∈ sourceAddStep newStyle st k) : ∃ d, op = MapOp.addSource k d := by
  unfold sourceAddStep at h
  rcases hl : lookupKey newStyle.sources k with _ | d <;> rw [hl] at h
  · exact absurd h (List.not_mem_nil op)
  · replace h : op ∈ [MapOp.addSource k d] := h
    exact ⟨d, List.mem_singleton.mp h⟩

/-- Checked source addition emits only `addSource` on the scanned key. -/
theorem sourceAddStepChecked_shape {newStyle : StyleSpec} {st : MapState} {k : String}
    {op : MapOp} (h : op ∈ sourceAddStepChecked newStyle st k) :
    ∃ d, op = MapOp.addSource k d := by
  unfold sourceAddStepChecked at h
  rcases hl : lookupKey newStyle.sources k with _ | d <;> rw [hl] at h
  · exact absurd h (List.not_mem_nil op)
  · replace h : op ∈ (if (st.getSource k).isSome = true then []
        else [MapOp.addSource k d]) := h
    by_cases hg : (st.getSource k).isSome = true
    · rw [if_pos hg] at h
      exact absurd h (List.not_mem_nil op)
    · rw [if_neg hg] at h
      exact ⟨d, List.mem_singleton.mp h⟩

/-- A successful tile-update step emits only `setTiles` on the scanned key. -/
theorem tileUpdateStep_shape {currentStyle newStyle : StyleSpec} {st : MapState}
    {k : String} {ops : List MapOp} {op : MapOp}
    (hok : tileUpdateStep currentStyle newStyle st k = .ok ops) (hop : op ∈ ops) :
    ∃ u, op = MapOp.setTiles k u := by
  unfold tileUpdateStep at hok
  rcases hn : lookupKey newStyle.sources k with _ | nd <;>
    rcases hc : lookupKey currentStyle.sources k with _ | cd <;>
      rw [hn, hc] at hok
  · replace hok : (Except.ok [] : Except Unit (List MapOp)) = .ok ops := hok
    cases hok; exact absurd hop (List.not_mem_nil op)
  · replace hok : (Except.ok [] : Except Unit (List MapOp)) = .ok ops := hok
    cases hok; exact absurd hop (List.not_mem_nil op)
  · replace hok : (Except.ok [] : Except Unit (List MapOp)) = .ok ops := hok
    cases hok; exact absurd hop (List.not_mem_nil op)
  · replace hok : (if nd.type = "raster" ∧ cd.type = "raster" then
        (match nd.tiles with
         | none => Except.error ()
         | some nu =>
           match cd.tiles with
           | none => Except.error ()
           | some cu =>
             if nu.length ≠ cu.length ∨
                 0 < (nu.enum.filter (fun p => decide (some p.2 ≠ cu.get? p.1))).length then
               match st.getSource k with
               | some live =>
                   Except.ok (if live.type = "raster" then [MapOp.setTiles k nu] else [])
               | none => Except.ok []
             else Except.ok [])
      else Except.ok []) = .ok ops := hok
    by_cases ht : nd.type = "raster" ∧ cd.type = "raster"
    · rw [if_pos ht] at hok
      rcases hndt : nd.tiles with _ | nu <;> rw [hndt] at hok
      · cases hok
      · rcases hcdt : cd.tiles with _ | cu <;> rw [hcdt] at hok
        · cases hok
        · replace hok : (if nu.length ≠ cu.length ∨
                0 < (nu.enum.filter (fun p => decide (some p.2 ≠ cu.get? p.1))).length then
              (match st.getSource k with
               | some live =>
                   Except.ok (if live.type = "raster" then [MapOp.setTiles k nu] else [])
               | none => (Except.ok [] : Except Unit (List MapOp)))
            else Except.ok []) = .ok ops := hok
          by_cases hch : nu.length ≠ cu.length ∨
              0 < (nu.enum.filter (fun p => decide (some p.2 ≠ cu.get? p.1))).length
          · rw [if_pos hch] at hok
            rcases hgs : st.getSource k with _ | live <;> rw [hgs] at hok
            · replace hok : (Except.ok [] : Except Unit (List MapOp)) = .ok ops := hok
              cases hok; exact absurd hop (List.not_mem_nil op)
            · replace hok : (Except.ok (if live.type = "raster"
                  then [MapOp.setTiles k nu] else []) : Except Unit (List MapOp))
                  = .ok ops := hok
              by_cases hrt : live.type = "raster"
              · rw [if_pos hrt] at hok
                cases hok
                exact ⟨nu, List.mem_singleton.mp hop⟩
              · rw [if_neg hrt] at hok
                cases hok; exact absurd hop (List.not_mem_nil op)
          · rw [if_neg hch] at hok
            cases hok; exact absurd hop (List.not_mem_nil op)
    · rw [if_neg ht] at hok
      cases hok; exact absurd hop (List.not_mem_nil op)

/-- Layer removal emits only `removeLayer` on the scanned id. -/
theorem layerRemovalStep_shape {st : MapState} {i : String} {op : MapOp}
    (h : op ∈ layerRemovalStep st i) : op = MapOp.removeLayer i := by
  unfold layerRemovalStep at h
  split at h
  · simpa using h
  · simp at h

/-- Layer addition emits only `addLayer` of the scanned layer. -/
theorem layerAddStep_shape {toAdd : List String} {st : MapState} {b : LayerDef} {op : MapOp}
    (h : op ∈ layerAddStep toAdd st b) : op = MapOp.addLayer b := by
  unfold layerAddStep at h
  split at h
  · simpa using h
  · simp at h

/-- Layer patching emits only property-set calls: never a source
addition or removal and never a layer removal. -/
theorem layerPatchStep_shape {ids : List String} {st : MapState} {b : LayerDef} {op : MapOp}
    (h : op ∈ layerPatchStep ids st b) :
    (∃ i k v, op = MapOp.setPaintProperty i k v) ∨
      (∃ i k v, op = MapOp.setLayoutProperty i k v) ∨
      (∃ i f, op = MapOp.setFilter i f) := by
  unfold layerPatchStep at h
  by_cases hid : b.id ∈ ids
  · rw [if_pos hid] at h
    rcases hgl : st.getLayer b.id with _ | cl <;> rw [hgl] at h
    · exact absurd h (List.not_mem_nil op)
    · replace h : op ∈
          ((match b.paint with
            | some np =>
                if cl.paint ≠ some np then
                  np.map (fun p => MapOp.setPaintProperty b.id p.1 p.2)
                else []
            | none => []) ++
           (match b.layout with
            | some nl =>
                if cl.layout ≠ some nl then
                  nl.map (fun p => MapOp.setLayoutProperty b.id p.1 p.2)
                else []
            | none => []) ++
           (match b.filter with
            | some nf =>
                if cl.filter ≠ some nf then [MapOp.setFilter b.id (some nf)] else []
            | none => [])) := h
      simp only [List.mem_append] at h
      rcases h with (h | h) | h
      · rcases hp : b.paint with _ | np <;> rw [hp] at h
        · exact absurd h (List.not_mem_nil op)
        · replace h : op ∈ (if cl.paint ≠ some np then
              np.map (fun p => MapOp.setPaintProperty b.id p.1 p.2) else []) := h
          by_cases hne : cl.paint ≠ some np
          · rw [if_pos hne] at h
            obtain ⟨p, hpin, he⟩ := List.mem_map.mp h
            exact Or.inl ⟨b.id, p.1, p.2, he.symm⟩
          · rw [if_neg hne] at h
            exact absurd h (List.not_mem_nil op)
      · rcases hl2 : b.layout with _ | nl <;> rw [hl2] at h
        · exact absurd h (List.not_mem_nil op)
        · replace h : op ∈ (if cl.layout ≠ some nl then
              nl.map (fun p => MapOp.setLayoutProperty b.id p.1 p.2) else []) := h
          by_cases hne : cl.layout ≠ some nl
          · rw [if_pos hne] at h
            obtain ⟨p, hpin, he⟩ := List.mem_map.mp h
            exact Or.inr (Or.inl ⟨b.id, p.1, p.2, he.symm⟩)
          · rw [if_neg hne] at h
            exact absurd h (List.not_mem_nil op)
      · rcases hf : b.filter with _ | nf <;> rw [hf] at h
        · exact absurd h (List.not_mem_nil op)
        · replace h : op ∈ (if cl.filter ≠ some nf then
              [MapOp.setFilter b.id (some nf)] else []) := h
          by_cases hne : cl.filter ≠ some nf
          · rw [if_pos hne] at h
            exact Or.inr (Or.inr ⟨b.id, some nf, List.mem_singleton.mp h⟩)
          · rw [if_neg hne] at h
            exact absurd h (List.not_mem_nil op)
  · rw [if_neg hid] at h
    exact absurd h (List.not_mem_nil op)

/-- Membership in the computed source-removal set. -/
theorem mem_sourcesToRemove {old new : StyleSpec} {s : String} :
    s ∈ sourcesToRemove old new ↔ s ∈ objKeys old.sources ∧ s ∉ objKeys new.sources := by
  unfold sourcesToRemove
  simp [List.mem_filter, mem_jsSetList]

/-- Membership in the computed source-addition set. -/
theorem mem_sourcesToAdd {old new : StyleSpec} {s : String} :
    s ∈ sourcesToAdd old new ↔ s ∈ objKeys new.sources ∧ s ∉ objKeys old.sources := by
  unfold sourcesToAdd
  simp [List.mem_filter, mem_jsSetList]

/-- Applying a list of `removeSource` calls leaves the layers untouched. -/
theorem layers_eq_of_removeSource_ops :
    ∀ {ops : List MapOp} {st : MapState},
      (∀ op ∈ ops, ∃ k, op = MapOp.removeSource k) →
      (applyMapOps st ops).layers = st.layers := by
  intro ops
  induction ops with
  | nil => intro st _; rfl
  | cons o os ih =>
    intro st hsh
    obtain ⟨k, hk⟩ := hsh o (List.mem_cons_self o os)
    subst hk
    simpa [applyMapOps, applyOp] using ih (fun op hop => hsh op (List.mem_cons_of_mem _ hop))

/-- One dependent-layer-removal step either leaves the live layers alone or
filters out exactly the scanned layer's id. -/
theorem depLayerStep_layers_cases (toRemove : List String) (st : MapState) (b : LayerDef) :
    (applyMapOps st (depLayerRemovalStep toRemove st b)).layers = st.layers ∨
      (applyMapOps st (depLayerRemovalStep toRemove st b)).layers
        = st.layers.filter (fun x => decide (x.id ≠ b.id)) := by
  unfold depLayerRemovalStep
  rcases hsrc : b.source with _ | str <;> simp only [hsrc]
  · exact Or.inl rfl
  · by_cases h1 : str ≠ "" ∧ str ∈ toRemove
    · rw [if_pos h1]
      by_cases h2 : (st.getLayer b.id).isSome = true
      · rw [if_pos h2]
        exact Or.inr rfl
      · rw [if_neg h2]
        exact Or.inl rfl
    · rw [if_neg h1]
      exact Or.inl rfl

/-- When the scanned layer references a removed source, the step leaves the
live layers exactly filtered of that layer's id (also when the id was
already absent). -/
theorem depLayerStep_layers_of_cond {toRemove : List String} {st : MapState} {b : LayerDef}
    {str : String} (hsrc : b.source = some str) (hcond : str ≠ "" ∧ str ∈ toRemove) :
    (applyMapOps st (depLayerRemovalStep toRemove st b)).layers
      = st.layers.filter (fun x => decide (x.id ≠ b.id)) := by
  unfold depLayerRemovalStep
  simp only [hsrc]
  rw [if_pos hcond]
  by_cases h2 : (st.getLayer b.id).isSome = true
  · rw [if_pos h2]
    rfl
  · rw [if_neg h2]
    have hnone : st.layers.find? (fun l => l.id == b.id) = none := by
      rw [MapState.getLayer] at h2
      exact Option.not_isSome_iff_eq_none.mp (by simpa using h2)
    have hall := List.find?_eq_none.mp hnone
    refine Eq.symm (List.filter_eq_self.mpr ?_)
    intro a ha
    simp only [decide_eq_true_eq]
    intro he
    exact hall a ha (by simp [he])

/-- A dependent-layer-removal step can only shrink the live layer list. -/
theorem depLayerStep_layers_subset (toRemove : List String) (st : MapState) (b : LayerDef) :
    (applyMapOps st (depLayerRemovalStep toRemove st b)).layers ⊆ st.layers := by
  rcases depLayerStep_layers_cases toRemove st b with h | h
  · rw [h]
    exact fun x hx => hx
  · rw [h]
    exact List.Sublist.subset (List.filter_sublist _)

/-- If a current-style layer references a removed source and its id is on
the live map, the dependent-layer phase emits its removal (the scanned
layer ids being distinct, earlier steps cannot have removed it first). -/
theorem removeLayer_mem_phase1
    {toRemove : List String} {s : String} {l : LayerDef}
    (hls : l.source = some s) (hs0 : s ≠ "") (hsr : s ∈ toRemove) :
    ∀ {ll : List LayerDef} {st : MapState}, l ∈ ll → (ll.map LayerDef.id).Nodup →
      (∃ x ∈ st.layers, x.id = l.id) →
      MapOp.removeLayer l.id ∈ (phaseFold (depLayerRemovalStep toRemove) st ll).1 := by
  intro ll
  induction ll with
  | nil => intro st hmem; cases hmem
  | cons b bs ih =>
    intro st hmem hnd hpresent
    simp only [phaseFold, List.mem_append]
    rcases List.mem_cons.mp hmem with hlb | hlbs
    · subst hlb
      left
      have hsome : (st.getLayer l.id).isSome = true := by
        rw [MapState.getLayer, List.find?_isSome]
        obtain ⟨x, hx, hxid⟩ := hpresent
        exact ⟨x, hx, by simp [hxid]⟩
      have hstep : depLayerRemovalStep toRemove st l = [MapOp.removeLayer l.id] := by
        unfold depLayerRemovalStep
        simp only [hls]
        rw [if_pos ⟨hs0, hsr⟩, if_pos hsome]
      rw [hstep]
      exact List.mem_singleton.mpr rfl
    · right
      simp only [List.map_cons, List.nodup_cons] at hnd
      have hbid : b.id ≠ l.id := by
        intro he
        exact hnd.1 (he ▸ List.mem_map_of_mem LayerDef.id hlbs)
      refine ih hlbs hnd.2 ?_
      obtain ⟨x, hx, hxid⟩ := hpresent
      refine ⟨x, ?_, hxid⟩
      rcases depLayerStep_layers_cases toRemove st b with hcase | hcase
      · rw [hcase]; exact hx
      · rw [hcase]
        exact List.mem_filter.mpr ⟨hx, by simp [hxid, hbid.symm]⟩

/-- After the dependent-layer phase, no live layer references the removed
source `s`, provided every live layer referencing `s` appears in the
scanned (current style) layer list. -/
theorem phase1_removes_refs {toRemove : List String} {s : String}
    (hs0 : s ≠ "") (hsr : s ∈ toRemove) :
    ∀ {ll : List LayerDef} {st : MapState},
      (∀ x ∈ st.layers, x.source = some s → x ∈ ll) →
      ∀ x ∈ (phaseFold (depLayerRemovalStep toRemove) st ll).2.layers, x.source ≠ some s := by
  intro ll
  induction ll with
  | nil =>
    intro st hsync x hx hsrc
    exact absurd (hsync x hx hsrc) (List.not_mem_nil x)
  | cons b bs ih =>
    intro st hsync x hx
    simp only [phaseFold] at hx
    refine ih ?_ x hx
    intro y hy hysrc
    have hy0 : y ∈ st.layers := depLayerStep_layers_subset toRemove st b hy
    rcases List.mem_cons.mp (hsync y hy0 hysrc) with he | hbs
    · exfalso
      subst he
      rw [depLayerStep_layers_of_cond hysrc ⟨hs0, hsr⟩] at hy
      have := (List.mem_filter.mp hy).2
      simp at this
    · exact hbs

end ReconcilerLemmas

section ReconcilerNoRemoveSource

/-- The source-addition pass emits no `removeSource` (plain variant). -/
theorem noRS_sourceAdd {newStyle : StyleSpec} {st : MapState} {keys : List String} :
    ∀ op ∈ (phaseFold (sourceAddStep newStyle) st keys).1, ∀ k, op ≠ MapOp.removeSource k := by
  intro op hop k
  obtain ⟨st2, a, _, hmem⟩ := phaseFold_ops_mem hop
  obtain ⟨d, hd⟩ := sourceAddStep_shape hmem
  simp [hd]

/-- The source-addition pass emits no `removeSource` (checked variant). -/
theorem noRS_sourceAddChecked {newStyle : StyleSpec} {st : MapState} {keys : List String} :
    ∀ op ∈ (phaseFold (sourceAddStepChecked newStyle) st keys).1,
      ∀ k, op ≠ MapOp.removeSource k := by
  intro op hop k
  obtain ⟨st2, a, _, hmem⟩ := phaseFold_ops_mem hop
  obtain ⟨d, hd⟩ := sourceAddStepChecked_shape hmem
  simp [hd]

/-- The tile-update pass emits no `removeSource`. -/
theorem noRS_tiles {currentStyle newStyle : StyleSpec} {st : MapState} {keys : List String} :
    ∀ op ∈ (phaseFoldE (tileUpdateStep currentStyle newStyle) st keys).1,
      ∀ k, op ≠ MapOp.removeSource k := by
  intro op hop k
  obtain ⟨st2, a, ops2, _, hok, hmem⟩ := phaseFoldE_ops_mem hop
  obtain ⟨u, hu⟩ := tileUpdateStep_shape hok hmem
  simp [hu]

/-- The layer-removal pass emits no `removeSource`. -/
theorem noRS_layerRemoval {st : MapState} {ids : List String} :
    ∀ op ∈ (phaseFold layerRemovalStep st ids).1, ∀ k, op ≠ MapOp.removeSource k := by
  intro op hop k
  obtain ⟨st2, a, _, hmem⟩ := phaseFold_ops_mem hop
  have := layerRemovalStep_shape hmem
  simp [this]

/-- The layer-addition pass emits no `removeSource`. -/
theorem noRS_layerAdd {toAdd : List String} {st : MapState} {ls : List LayerDef} :
    ∀ op ∈ (phaseFold (layerAddStep toAdd) st ls).1, ∀ k, op ≠ MapOp.removeSource k := by
  intro op hop k
  obtain ⟨st2, a, _, hmem⟩ := phaseFold_ops_mem hop
  have := layerAddStep_shape hmem
  simp [this]

/-- The layer-patching pass emits no `removeSource`. -/
theorem noRS_layerPatch {ids : List String} {st : MapState} {ls : List LayerDef} :
    ∀ op ∈ (phaseFold (layerPatchStep ids) st ls).1, ∀ k, op ≠ MapOp.removeSource k := by
  intro op hop k
  obtain ⟨st2, a, _, hmem⟩ := phaseFold_ops_mem hop
  rcases layerPatchStep_shape hmem with ⟨i, k2, v, h⟩ | ⟨i, k2, v, h⟩ | ⟨i, f, h⟩ <;> simp [h]

/-- The setTiles-capable phases coincide with the plain ones on the shared
prefix. -/
theorem tiles_phase1_eq : StyleCompareTiles.phase1 = StyleComparePlain.phase1 := rfl

/-- Phase 2 also coincides between the two variants. -/
theorem tiles_phase2_eq : StyleCompareTiles.phase2 = StyleComparePlain.phase2 := rfl

end ReconcilerNoRemoveSource

section ClaimC5

/-- Core removal-ordering fact shared by both reconciler variants: in a
trace `p1 ++ (p2 ++ rest)` where `p1` is the dependent-layer phase, `p2`
the source-removal phase and `rest` contains no `removeSource`, the removal
of a current-style layer `l` referencing the removed source `s` precedes
every `removeSource s`, and at the moment a `removeSource s` is applied no
live layer references `s`. -/
theorem removeSource_order_core
    (old new : StyleSpec) (st0 : MapState) (s : String) (l : LayerDef)
    (ops rest : List MapOp)
    (hs0 : s ≠ "") (hin : s ∈ objKeys old.sources) (hout : s ∉ objKeys new.sources)
    (hl : l ∈ old.layers) (hls : l.source = some s)
    (hon : ∃ x ∈ st0.layers, x.id = l.id)
    (hnd : (old.layers.map LayerDef.id).Nodup)
    (hsync : ∀ x ∈ st0.layers, x.source = some s → x ∈ old.layers)
    (hops : ops = (StyleComparePlain.phase1 old new st0).1 ++
      ((StyleComparePlain.phase2 old new st0).1 ++ rest))
    (hrest : ∀ op ∈ rest, ∀ k, op ≠ MapOp.removeSource k) :
    (∃ i : Nat, ops[i]? = some (MapOp.removeLayer l.id) ∧
       ∀ j : Nat, ops[j]? = some (MapOp.removeSource s) → i < j) ∧
    (∀ j : Nat, ops[j]? = some (MapOp.removeSource s) →
       ∀ x ∈ (applyMapOps st0 (ops.take j)).layers, x.source ≠ some s) := by
  have hsr : s ∈ sourcesToRemove old new := mem_sourcesToRemove.mpr ⟨hin, hout⟩
  have hF1 : MapOp.removeLayer l.id ∈ (StyleComparePlain.phase1 old new st0).1 :=
    removeLayer_mem_phase1 hls hs0 hsr hl hnd hon
  have hAshape : ∀ op ∈ (StyleComparePlain.phase1 old new st0).1,
      ∃ i2, op = MapOp.removeLayer i2 := by
    intro op hop
    obtain ⟨st2, a, _, hmem⟩ := phaseFold_ops_mem hop
    exact ⟨a.id, depLayerRemovalStep_shape hmem⟩
  have hBshape : ∀ op ∈ (StyleComparePlain.phase2 old new st0).1,
      ∃ k, op = MapOp.removeSource k := by
    intro op hop
    obtain ⟨st2, a, _, hmem⟩ := phaseFold_ops_mem hop
    exact ⟨a, sourceRemovalStep_shape hmem⟩
  obtain ⟨i, hAi⟩ := List.mem_iff_getElem?.mp hF1
  have hilt : i < (StyleComparePlain.phase1 old new st0).1.length :=
    (List.getElem?_eq_some_iff.mp hAi).1
  have hjge : ∀ j : Nat, ops[j]? = some (MapOp.removeSource s) →
      (StyleComparePlain.phase1 old new st0).1.length ≤ j := by
    intro j hj
    by_contra hlt
    push_neg at hlt
    rw [hops, List.getElem?_append_left hlt] at hj
    obtain ⟨i2, hi2⟩ := hAshape _ (List.getElem?_mem hj)
    exact MapOp.noConfusion hi2
  constructor
  · refine ⟨i, ?_, ?_⟩
    · rw [hops, List.getElem?_append_left hilt]
      exact hAi
    · intro j hj
      exact lt_of_lt_of_le hilt (hjge j hj)
  · intro j hj x hx hxsrc
    have hjA := hjge j hj
    have hm : j - (StyleComparePlain.phase1 old new st0).1.length
        < (StyleComparePlain.phase2 old new st0).1.length := by
      by_contra hge
      push_neg at hge
      rw [hops, List.getElem?_append_right hjA, List.getElem?_append_right hge] at hj
      exact hrest _ (List.getElem?_mem hj) s rfl
    have htake : ops.take j = (StyleComparePlain.phase1 old new st0).1 ++
        (StyleComparePlain.phase2 old new st0).1.take
          (j - (StyleComparePlain.phase1 old new st0).1.length) := by
      rw [hops, List.take_append_eq_append_take, List.take_all_of_le hjA,
        List.take_append_eq_append_take, Nat.sub_eq_zero_of_le (le_of_lt hm),
        List.take_zero, List.append_nil]
    rw [htake, applyMapOps_append] at hx
    have hBt : ∀ op ∈ (StyleComparePlain.phase2 old new st0).1.take
        (j - (StyleComparePlain.phase1 old new st0).1.length),
        ∃ k, op = MapOp.removeSource k :=
      fun op hop => hBshape op (List.take_subset _ _ hop)
    rw [layers_eq_of_removeSource_ops hBt] at hx
    have hstA : applyMapOps st0 (StyleComparePlain.phase1 old new st0).1
        = (StyleComparePlain.phase1 old new st0).2 := by
      simp only [StyleComparePlain.phase1]
      exact phaseFold_snd_eq.symm
    rw [hstA] at hx
    have hrefs := @phase1_removes_refs (sourcesToRemove old new) s hs0 hsr old.layers st0 hsync
    simp only [StyleComparePlain.phase1] at hx
    exact hrefs x hx hxsrc


/-- C5 counterexample: with a source whose identifier is the empty string
(falsy in JS), the dependent-layer scan skips the referencing layer, so the
reconciler issues `removeSource ""` as its very first call while the layer
referencing that source is still present on the live map; the layer's
removal (by the plain layer-diff phase) comes only after the source
removal. -/
theorem emptyId_removeSource_order_cex :
    (StyleComparePlain.updateStyle
        ⟨[("", ⟨"raster", some []⟩)], [⟨"L", some "", none, none, none⟩]⟩
        ⟨[], []⟩
        ⟨[⟨"L", some "", none, none, none⟩], [("", ⟨"raster", some []⟩)]⟩).ops
      = [MapOp.removeSource "", MapOp.removeLayer "L"] ∧
    (applyMapOps ⟨[⟨"L", some "", none, none, none⟩], [("", ⟨"raster", some []⟩)]⟩
        ((StyleComparePlain.updateStyle
          ⟨[("", ⟨"raster", some []⟩)], [⟨"L", some "", none, none, none⟩]⟩
          ⟨[], []⟩
          ⟨[⟨"L", some "", none, none, none⟩], [("", ⟨"raster", some []⟩)]⟩).ops.take 0)).layers
      = [⟨"L", some "", none, none, none⟩] := by
  refine ⟨by decide, by decide⟩

/-- C5 (amended): in both reconciler variants, for every removed source `s`
with a non-empty identifier, every current-style layer referencing `s` that
is present on the live map is removed strictly before any `removeSource s`,
and at the moment a `removeSource s` is issued no live layer references `s`
(provided the live layers referencing `s` all appear in the current style,
and the current style's layer ids are distinct). -/
theorem depLayers_removed_before_removeSource
    (old new : StyleSpec) (st0 : MapState) (s : String) (l : LayerDef)
    (hs0 : s ≠ "")
    (hin : s ∈ objKeys old.sources) (hout : s ∉ objKeys new.sources)
    (hl : l ∈ old.layers) (hls : l.source = some s)
    (hon : ∃ x ∈ st0.layers, x.id = l.id)
    (hnd : (old.layers.map LayerDef.id).Nodup)
    (hsync : ∀ x ∈ st0.layers, x.source = some s → x ∈ old.layers) :
    ((∃ i : Nat, (StyleComparePlain.updateStyle old new st0).ops[i]?
          = some (MapOp.removeLayer l.id) ∧
        ∀ j : Nat, (StyleComparePlain.updateStyle old new st0).ops[j]?
          = some (MapOp.removeSource s) → i < j) ∧
      (∀ j : Nat, (StyleComparePlain.updateStyle old new st0).ops[j]?
          = some (MapOp.removeSource s) →
        ∀ x ∈ (applyMapOps st0
            ((StyleComparePlain.updateStyle old new st0).ops.take j)).layers,
          x.source ≠ some s)) ∧
    ((∃ i : Nat, (StyleCompareTiles.updateStyle old new st0).ops[i]?
          = some (MapOp.removeLayer l.id) ∧
        ∀ j : Nat, (StyleCompareTiles.updateStyle old new st0).ops[j]?
          = some (MapOp.removeSource s) → i < j) ∧
      (∀ j : Nat, (StyleCompareTiles.updateStyle old new st0).ops[j]?
          = some (MapOp.removeSource s) →
        ∀ x ∈ (applyMapOps st0
            ((StyleCompareTiles.updateStyle old new st0).ops.take j)).layers,
          x.source ≠ some s)) := by
  constructor
  · refine removeSource_order_core old new st0 s l _
      ((StyleComparePlain.phase3 old new st0).1 ++
        ((StyleComparePlain.phase5 old new st0).1 ++
          ((StyleComparePlain.phase6 old new st0).1 ++
            (StyleComparePlain.phase7 old new st0).1)))
      hs0 hin hout hl hls hon hnd hsync ?_ ?_
    · simp [StyleComparePlain.updateStyle, List.append_assoc]
    · intro op hop k
      simp only [List.mem_append] at hop
      rcases hop with h | h | h | h
      · exact noRS_sourceAdd op h k
      · exact noRS_layerRemoval op h k
      · exact noRS_layerAdd op h k
      · exact noRS_layerPatch op h k
  · by_cases hth : (StyleCompareTiles.phase4 old new st0).2.2 = true
    · refine removeSource_order_core old new st0 s l _
        ((StyleCompareTiles.phase3 old new st0).1 ++ (StyleCompareTiles.phase4 old new st0).1)
        hs0 hin hout hl hls hon hnd hsync ?_ ?_
      · simp [StyleCompareTiles.updateStyle, hth, tiles_phase1_eq, tiles_phase2_eq,
          List.append_assoc]
      · intro op hop k
        simp only [List.mem_append] at hop
        rcases hop with h | h
        · exact noRS_sourceAddChecked op h k
        · exact noRS_tiles op h k
    · refine removeSource_order_core old new st0 s l _
        ((StyleCompareTiles.phase3 old new st0).1 ++
          ((StyleCompareTiles.phase4 old new st0).1 ++
            ((StyleCompareTiles.phase5 old new st0).1 ++
              ((StyleCompareTiles.phase6 old new st0).1 ++
                (StyleCompareTiles.phase7 old new st0).1))))
        hs0 hin hout hl hls hon hnd hsync ?_ ?_
      · simp [StyleCompareTiles.updateStyle, hth, tiles_phase1_eq, tiles_phase2_eq,
          List.append_assoc]
      · intro op hop k
        simp only [List.mem_append] at hop
        rcases hop with h | h | h | h | h
        · exact noRS_sourceAddChecked op h k
        · exact noRS_tiles op h k
        · exact noRS_layerRemoval op h k
        · exact noRS_layerAdd op h k
        · exact noRS_layerPatch op h k

/-- Witness for `depLayers_removed_before_removeSource`: old style with
source `a` and layer `L` referencing it, empty new style, map in sync. -/
theorem depLayers_removed_before_removeSource_witness :
    ((∃ i : Nat, (StyleComparePlain.updateStyle
          ⟨[("a", ⟨"raster", some ["u"]⟩)], [⟨"L", some "a", none, none, none⟩]⟩ ⟨[], []⟩
          ⟨[⟨"L", some "a", none, none, none⟩], [("a", ⟨"raster", some ["u"]⟩)]⟩).ops[i]?
          = some (MapOp.removeLayer "L") ∧
        ∀ j : Nat, (StyleComparePlain.updateStyle
          ⟨[("a", ⟨"raster", some ["u"]⟩)], [⟨"L", some "a", none, none, none⟩]⟩ ⟨[], []⟩
          ⟨[⟨"L", some "a", none, none, none⟩], [("a", ⟨"raster", some ["u"]⟩)]⟩).ops[j]?
          = some (MapOp.removeSource "a") → i < j) ∧
      (∀ j : Nat, (StyleComparePlain.updateStyle
          ⟨[("a", ⟨"raster", some ["u"]⟩)], [⟨"L", some "a", none, none, none⟩]⟩ ⟨[], []⟩
          ⟨[⟨"L", some "a", none, none, none⟩], [("a", ⟨"raster", some ["u"]⟩)]⟩).ops[j]?
          = some (MapOp.removeSource "a") →
        ∀ x ∈ (applyMapOps ⟨[⟨"L", some "a", none, none, none⟩], [("a", ⟨"raster", some ["u"]⟩)]⟩
            ((StyleComparePlain.updateStyle
              ⟨[("a", ⟨"raster", some ["u"]⟩)], [⟨"L", some "a", none, none, none⟩]⟩ ⟨[], []⟩
              ⟨[⟨"L", some "a", none, none, none⟩], [("a", ⟨"raster", some ["u"]⟩)]⟩).ops.take j)).layers,
          x.source ≠ some "a")) ∧
    ((∃ i : Nat, (StyleCompareTiles.updateStyle
          ⟨[("a", ⟨"raster", some ["u"]⟩)], [⟨"L", some "a", none, none, none⟩]⟩ ⟨[], []⟩
          ⟨[⟨"L", some "a", none, none, none⟩], [("a", ⟨"raster", some ["u"]⟩)]⟩).ops[i]?
          = some (MapOp.removeLayer "L") ∧
        ∀ j : Nat, (StyleCompareTiles.updateStyle
          ⟨[("a", ⟨"raster", some ["u"]⟩)], [⟨"L", some "a", none, none, none⟩]⟩ ⟨[], []⟩
          ⟨[⟨"L", some "a", none, none, none⟩], [("a", ⟨"raster", some ["u"]⟩)]⟩).ops[j]?
          = some (MapOp.removeSource "a") → i < j) ∧
      (∀ j : Nat, (StyleCompareTiles.updateStyle
          ⟨[("a", ⟨"raster", some ["u"]⟩)], [⟨"L", some "a", none, none, none⟩]⟩ ⟨[], []⟩
          ⟨[⟨"L", some "a", none, none, none⟩], [("a", ⟨"raster", some ["u"]⟩)]⟩).ops[j]?
          = some (MapOp.removeSource "a") →
        ∀ x ∈ (applyMapOps ⟨[⟨"L", some "a", none, none, none⟩], [("a", ⟨"raster", some ["u"]⟩)]⟩
            ((StyleCompareTiles.updateStyle
              ⟨[("a", ⟨"raster", some ["u"]⟩)], [⟨"L", some "a", none, none, none⟩]⟩ ⟨[], []⟩
              ⟨[⟨"L", some "a", none, none, none⟩], [("a", ⟨"raster", some ["u"]⟩)]⟩).ops.take j)).layers,
          x.source ≠ some "a")) :=
  depLayers_removed_before_removeSource
    ⟨[("a", ⟨"raster", some ["u"]⟩)], [⟨"L", some "a", none, none, none⟩]⟩ ⟨[], []⟩
    ⟨[⟨"L", some "a", none, none, none⟩], [("a", ⟨"raster", some ["u"]⟩)]⟩ "a"
    ⟨"L", some "a", none, none, none⟩
    (by decide) (by decide) (by decide) (by decide) rfl (by decide) (by decide) (by decide)

end ClaimC5

section LookupPreservation

/-- Unfolding of `lookupKey` on a cons cell. -/
theorem lookupKey_cons {α : Type} (p : String × α) (ps : List (String × α)) (k : String) :
    lookupKey (p :: ps) k = if p.1 == k then some p.2 else lookupKey ps k := by
  unfold lookupKey
  rcases hb : (p.1 == k) with _ | _ <;> simp [List.find?_cons, hb]

/-- Removing the entries of a different key does not change a lookup. -/
theorem lookupKey_filter_ne {α : Type} {m : List (String × α)} {k kr : String} (h : k ≠ kr) :
    lookupKey (m.filter (fun p => decide (p.1 ≠ kr))) k = lookupKey m k := by
  induction m with
  | nil => rfl
  | cons p ps ih =>
    rw [List.filter_cons]
    by_cases hpk : p.1 = kr
    · rw [if_neg (by simp [hpk])]
      rw [ih, lookupKey_cons,
        if_neg (by simp only [hpk, beq_iff_eq]; exact fun he => h he.symm)]
    · rw [if_pos (by simp [hpk])]
      rw [lookupKey_cons, lookupKey_cons, ih]

/-- Appending an entry with a different key does not change a lookup. -/
theorem lookupKey_append_single_ne {α : Type} {m : List (String × α)} {k kadd : String}
    {d : α} (h : kadd ≠ k) : lookupKey (m ++ [(kadd, d)]) k = lookupKey m k := by
  induction m with
  | nil =>
    simp only [List.nil_append]
    rw [lookupKey_cons, if_neg (by simpa using h)]
  | cons p ps ih =>
    simp only [List.cons_append]
    rw [lookupKey_cons, lookupKey_cons, ih]

/-- Updating the tiles of a different key does not change a lookup. -/
theorem lookupKey_mapSetTiles_ne {m : List (String × SourceDef)} {k kt : String}
    {urls : List String} (h : kt ≠ k) :
    lookupKey (m.map (fun p => if p.1 = kt then (p.1, { p.2 with tiles := some urls }) else p)) k
      = lookupKey m k := by
  induction m with
  | nil => rfl
  | cons p ps ih =>
    simp only [List.map_cons]
    by_cases hpk : p.1 = kt
    · rw [if_pos hpk]
      rw [lookupKey_cons, lookupKey_cons, ih,
        if_neg (by simp only [hpk, beq_iff_eq]; exact fun he => h he),
        if_neg (by simp only [hpk, beq_iff_eq]; exact fun he => h he)]
    · rw [if_neg hpk, lookupKey_cons, lookupKey_cons, ih]

/-- A call that spares source `k` leaves `getSource k` unchanged. -/
theorem applyOp_getSource_preserve (st : MapState) (k : String) :
    ∀ op : MapOp, opSparesSource k op → (applyOp st op).getSource k = st.getSource k := by
  intro op
  cases op with
  | removeLayer i => intro _; rfl
  | removeSource k2 =>
    intro h
    exact lookupKey_filter_ne (fun he => h he.symm)
  | addSource k2 d =>
    intro h
    exact lookupKey_append_single_ne h
  | setTiles k2 urls =>
    intro h
    exact lookupKey_mapSetTiles_ne h
  | addLayer l => intro _; rfl
  | setPaintProperty i k2 v => intro _; rfl
  | setLayoutProperty i k2 v => intro _; rfl
  | setFilter i f => intro _; rfl

/-- A trace of calls all sparing source `k` leaves `getSource k` unchanged. -/
theorem applyMapOps_getSource_preserve {k : String} :
    ∀ {ops : List MapOp} {st : MapState}, (∀ op ∈ ops, opSparesSource k op) →
      (applyMapOps st ops).getSource k = st.getSource k := by
  intro ops
  induction ops with
  | nil => intro st _; rfl
  | cons o os ih =>
    intro st hall
    have h1 : applyMapOps st (o :: os) = applyMapOps (applyOp st o) os := rfl
    rw [h1, ih (fun op hop => hall op (List.mem_cons_of_mem o hop)),
      applyOp_getSource_preserve st k o (hall o (List.mem_cons_self o os))]

end LookupPreservation

section ClaimC3

/-- Under the tiles-totality hypothesis (every source shared by the two
styles that is raster-typed in both carries a `tiles` array in both), the
tile scan never throws. -/
theorem tileUpdateStep_total {old new : StyleSpec}
    (htiles : ∀ k dn dc, lookupKey new.sources k = some dn →
      lookupKey old.sources k = some dc → dn.type = "raster" → dc.type = "raster" →
      (∃ u1, dn.tiles = some u1) ∧ (∃ u2, dc.tiles = some u2)) :
    ∀ st k, ∃ ops, tileUpdateStep old new st k = .ok ops := by
  intro st k
  rcases hres : tileUpdateStep old new st k with e | ops
  · exfalso
    unfold tileUpdateStep at hres
    rcases hn2 : lookupKey new.sources k with _ | dn <;>
      rcases hc2 : lookupKey old.sources k with _ | dc <;> rw [hn2, hc2] at hres
    · replace hres : (Except.ok [] : Except Unit (List MapOp)) = .error e := hres
      cases hres
    · replace hres : (Except.ok [] : Except Unit (List MapOp)) = .error e := hres
      cases hres
    · replace hres : (Except.ok [] : Except Unit (List MapOp)) = .error e := hres
      cases hres
    · replace hres : (if dn.type = "raster" ∧ dc.type = "raster" then
          (match dn.tiles with
           | none => Except.error ()
           | some nu =>
             match dc.tiles with
             | none => Except.error ()
             | some cu =>
               if nu.length ≠ cu.length ∨
                   0 < (nu.enum.filter (fun p => decide (some p.2 ≠ cu.get? p.1))).length then
                 match st.getSource k with
                 | some live =>
                     Except.ok (if live.type = "raster" then [MapOp.setTiles k nu] else [])
                 | none => Except.ok []
               else Except.ok [])
        else Except.ok []) = .error e := hres
      by_cases ht : dn.type = "raster" ∧ dc.type = "raster"
      · rw [if_pos ht] at hres
        obtain ⟨⟨u1, hu1⟩, ⟨u2, hu2⟩⟩ := htiles k dn dc hn2 hc2 ht.1 ht.2
        rw [hu1, hu2] at hres
        replace hres : (if u1.length ≠ u2.length ∨
              0 < (u1.enum.filter (fun p => decide (some p.2 ≠ u2.get? p.1))).length then
            (match st.getSource k with
             | some live =>
                 Except.ok (if live.type = "raster" then [MapOp.setTiles k u1] else [])
             | none => (Except.ok [] : Except Unit (List MapOp)))
          else Except.ok []) = .error e := hres
        by_cases hch : u1.length ≠ u2.length ∨
            0 < (u1.enum.filter (fun p => decide (some p.2 ≠ u2.get? p.1))).length
        · rw [if_pos hch] at hres
          rcases hgs : st.getSource k with _ | live <;> rw [hgs] at hres
          · replace hres : (Except.ok [] : Except Unit (List MapOp)) = .error e := hres
            cases hres
          · replace hres : (Except.ok (if live.type = "raster"
                then [MapOp.setTiles k u1] else []) : Except Unit (List MapOp)) = .error e := hres
            cases hres
        · rw [if_neg hch] at hres
          cases hres
      · rw [if_neg ht] at hres
        cases hres
  · exact ⟨ops, rfl⟩

/-- When the shared source `s` is raster in both styles with differing tile
lists, the live map holds it as a raster source, and the scan never throws,
the tile scan emits `setTiles s` with the new list. -/
theorem setTiles_mem_scan {old new : StyleSpec} {s : String} {od nd live : SourceDef}
    {ou nu : List String}
    (ho : lookupKey old.sources s = some od) (hn : lookupKey new.sources s = some nd)
    (hot : od.type = "raster") (hnt : nd.type = "raster")
    (hotiles : od.tiles = some ou) (hntiles : nd.tiles = some nu)
    (hdiff : nu.length ≠ ou.length ∨
      0 < (nu.enum.filter (fun p => decide (some p.2 ≠ ou.get? p.1))).length)
    (htotal : ∀ st k, ∃ ops, tileUpdateStep old new st k = .ok ops) :
    ∀ {keys : List String}, s ∈ keys → keys.Nodup →
      ∀ {st : MapState}, st.getSource s = some live → live.type = "raster" →
      MapOp.setTiles s nu ∈ (phaseFoldE (tileUpdateStep old new) st keys).1 := by
  intro keys
  induction keys with
  | nil => intro h; cases h
  | cons k ks ih =>
    intro hmem hnd st hlive hrt
    rcases List.mem_cons.mp hmem with he | hks
    · subst he
      have hstep : tileUpdateStep old new st s = .ok [MapOp.setTiles s nu] := by
        unfold tileUpdateStep
        rw [hn, ho]
        show (if nd.type = "raster" ∧ od.type = "raster" then
            (match nd.tiles with
             | none => Except.error ()
             | some nu2 =>
               match od.tiles with
               | none => Except.error ()
               | some cu =>
                 if nu2.length ≠ cu.length ∨
                     0 < (nu2.enum.filter (fun p => decide (some p.2 ≠ cu.get? p.1))).length then
                   match st.getSource s with
                   | some live2 =>
                       Except.ok (if live2.type = "raster" then [MapOp.setTiles s nu2] else [])
                   | none => Except.ok []
                 else Except.ok [])
          else Except.ok []) = .ok [MapOp.setTiles s nu]
        rw [if_pos ⟨hnt, hot⟩, hntiles, hotiles]
        show (if nu.length ≠ ou.length ∨
              0 < (nu.enum.filter (fun p => decide (some p.2 ≠ ou.get? p.1))).length then
            (match st.getSource s with
             | some live2 =>
                 Except.ok (if live2.type = "raster" then [MapOp.setTiles s nu] else [])
             | none => (Except.ok [] : Except Unit (List MapOp)))
          else Except.ok []) = .ok [MapOp.setTiles s nu]
        rw [if_pos hdiff, hlive]
        show Except.ok (if live.type = "raster" then [MapOp.setTiles s nu] else [])
          = .ok [MapOp.setTiles s nu]
        rw [if_pos hrt]
      rw [phaseFoldE, hstep]
      show MapOp.setTiles s nu ∈ [MapOp.setTiles s nu] ++
        (phaseFoldE (tileUpdateStep old new)
          (applyMapOps st [MapOp.setTiles s nu]) ks).1
      exact List.mem_append.mpr (Or.inl (List.mem_singleton.mpr rfl))
    · simp only [List.nodup_cons] at hnd
      have hkns : k ≠ s := fun he => hnd.1 (he ▸ hks)
      obtain ⟨ops, hok⟩ := htotal st k
      rw [phaseFoldE, hok]
      show MapOp.setTiles s nu ∈ ops ++
        (phaseFoldE (tileUpdateStep old new) (applyMapOps st ops) ks).1
      refine List.mem_append.mpr (Or.inr ?_)
      refine ih hks hnd.2 ?_ hrt
      rw [applyMapOps_getSource_preserve ?_]
      · exact hlive
      · intro op hop
        obtain ⟨u, hu⟩ := tileUpdateStep_shape hok hop
        subst hu
        exact hkns

/-- Every call in a setTiles-capable reconciliation trace is of one of the
phase shapes, with source-targeting calls confined to the computed key
sets. -/
theorem tiles_ops_mem_cases {old new : StyleSpec} {st0 : MapState} {op : MapOp}
    (h : op ∈ (StyleCompareTiles.updateStyle old new st0).ops) :
    (∃ i, op = MapOp.removeLayer i) ∨
      (∃ k, k ∈ sourcesToRemove old new ∧ op = MapOp.removeSource k) ∨
      (∃ k d, k ∈ sourcesToAdd old new ∧ op = MapOp.addSource k d) ∨
      (∃ k u, k ∈ existingSourceKeys old new ∧ op = MapOp.setTiles k u) ∨
      (∃ b, op = MapOp.addLayer b) ∨
      (∃ i k v, op = MapOp.setPaintProperty i k v) ∨
      (∃ i k v, op = MapOp.setLayoutProperty i k v) ∨
      (∃ i f, op = MapOp.setFilter i f) := by
  have hp1 : ∀ op2 ∈ (StyleCompareTiles.phase1 old new st0).1, ∃ i, op2 = MapOp.removeLayer i := by
    intro op2 hop
    obtain ⟨st2, a, _, hmem⟩ := phaseFold_ops_mem hop
    exact ⟨a.id, depLayerRemovalStep_shape hmem⟩
  have hp2 : ∀ op2 ∈ (StyleCompareTiles.phase2 old new st0).1,
      ∃ k, k ∈ sourcesToRemove old new ∧ op2 = MapOp.removeSource k := by
    intro op2 hop
    obtain ⟨st2, a, ha, hmem⟩ := phaseFold_ops_mem hop
    exact ⟨a, ha, sourceRemovalStep_shape hmem⟩
  have hp3 : ∀ op2 ∈ (StyleCompareTiles.phase3 old new st0).1,
      ∃ k d, k ∈ sourcesToAdd old new ∧ op2 = MapOp.addSource k d := by
    intro op2 hop
    obtain ⟨st2, a, ha, hmem⟩ := phaseFold_ops_mem hop
    obtain ⟨d, hd⟩ := sourceAddStepChecked_shape hmem
    exact ⟨a, d, ha, hd⟩
  have hp4 : ∀ op2 ∈ (StyleCompareTiles.phase4 old new st0).1,
      ∃ k u, k ∈ existingSourceKeys old new ∧ op2 = MapOp.setTiles k u := by
    intro op2 hop
    obtain ⟨st2, a, ops2, ha, hok, hmem⟩ := phaseFoldE_ops_mem hop
    obtain ⟨u, hu⟩ := tileUpdateStep_shape hok hmem
    exact ⟨a, u, ha, hu⟩
  have hp5 : ∀ op2 ∈ (StyleCompareTiles.phase5 old new st0).1, ∃ i, op2 = MapOp.removeLayer i := by
    intro op2 hop
    obtain ⟨st2, a, _, hmem⟩ := phaseFold_ops_mem hop
    exact ⟨a, layerRemovalStep_shape hmem⟩
  have hp6 : ∀ op2 ∈ (StyleCompareTiles.phase6 old new st0).1, ∃ b, op2 = MapOp.addLayer b := by
    intro op2 hop
    obtain ⟨st2, a, _, hmem⟩ := phaseFold_ops_mem hop
    exact ⟨a, layerAddStep_shape hmem⟩
  have hp7 : ∀ op2 ∈ (StyleCompareTiles.phase7 old new st0).1,
      (∃ i k v, op2 = MapOp.setPaintProperty i k v) ∨
        (∃ i k v, op2 = MapOp.setLayoutProperty i k v) ∨
        (∃ i f, op2 = MapOp.setFilter i f) := by
    intro op2 hop
    obtain ⟨st2, a, _, hmem⟩ := phaseFold_ops_mem hop
    exact layerPatchStep_shape hmem
  unfold StyleCompareTiles.updateStyle at h
  split at h <;> simp only [List.mem_append] at h
  · rcases h with ((h | h) | h) | h
    · exact Or.inl (hp1 op h)
    · exact Or.inr (Or.inl (hp2 op h))
    · exact Or.inr (Or.inr (Or.inl (hp3 op h)))
    · exact Or.inr (Or.inr (Or.inr (Or.inl (hp4 op h))))
  · rcases h with ((((((h | h) | h) | h) | h) | h) | h)
    · exact Or.inl (hp1 op h)
    · exact Or.inr (Or.inl (hp2 op h))
    · exact Or.inr (Or.inr (Or.inl (hp3 op h)))
    · exact Or.inr (Or.inr (Or.inr (Or.inl (hp4 op h))))
    · exact Or.inl (hp5 op h)
    · exact Or.inr (Or.inr (Or.inr (Or.inr (Or.inl (hp6 op h)))))
    · rcases hp7 op h with h7 | h7 | h7
      · exact Or.inr (Or.inr (Or.inr (Or.inr (Or.inr (Or.inl h7)))))
      · exact Or.inr (Or.inr (Or.inr (Or.inr (Or.inr (Or.inr (Or.inl h7))))))
      · exact Or.inr (Or.inr (Or.inr (Or.inr (Or.inr (Or.inr (Or.inr h7))))))


/-- C3 counterexample: a style pair in which source `s` is raster in both
styles with a changed tiles list, but another shared source `t` is a
`url`-style raster source without a `tiles` array; the tile scan throws on
`t` before reaching `s`, the reconciliation aborts, and no `setTiles` call
for `s` is ever issued. -/
theorem setTiles_skipped_after_throw_cex :
    (StyleCompareTiles.updateStyle
        ⟨[("t", ⟨"raster", none⟩), ("s", ⟨"raster", some ["o"]⟩)], []⟩
        ⟨[("t", ⟨"raster", none⟩), ("s", ⟨"raster", some ["n"]⟩)], []⟩
        ⟨[], [("t", ⟨"raster", none⟩), ("s", ⟨"raster", some ["o"]⟩)]⟩).ops = [] ∧
      (StyleCompareTiles.updateStyle
        ⟨[("t", ⟨"raster", none⟩), ("s", ⟨"raster", some ["o"]⟩)], []⟩
        ⟨[("t", ⟨"raster", none⟩), ("s", ⟨"raster", some ["n"]⟩)], []⟩
        ⟨[], [("t", ⟨"raster", none⟩), ("s", ⟨"raster", some ["o"]⟩)]⟩).threw = true := by
  refine ⟨by decide, by decide⟩

/-- C3 (amended): when a source `s` shared by the old and new style is
raster-typed in both with a changed tile URL list, the setTiles-capable
`updateStyle` issues `setTiles s` with the new list and issues no
`removeSource`/`addSource` for `s` — provided the live map holds `s` as a
raster source and every shared raster/raster source of the two styles
carries a `tiles` array in both (otherwise the scan throws, see the
partiality of the tiles check, and sources after the throwing one get no
update). -/
theorem updateStyle_setTiles_in_place
    (old new : StyleSpec) (st0 : MapState) (s : String)
    (od nd live : SourceDef) (ou nu : List String)
    (ho : lookupKey old.sources s = some od) (hn : lookupKey new.sources s = some nd)
    (hot : od.type = "raster") (hnt : nd.type = "raster")
    (hotiles : od.tiles = some ou) (hntiles : nd.tiles = some nu)
    (hdiff : nu.length ≠ ou.length ∨
      0 < (nu.enum.filter (fun p => decide (some p.2 ≠ ou.get? p.1))).length)
    (hlive : st0.getSource s = some live) (hrt : live.type = "raster")
    (htiles : ∀ k dn dc, lookupKey new.sources k = some dn →
      lookupKey old.sources k = some dc → dn.type = "raster" → dc.type = "raster" →
      (∃ u1, dn.tiles = some u1) ∧ (∃ u2, dc.tiles = some u2)) :
    MapOp.setTiles s nu ∈ (StyleCompareTiles.updateStyle old new st0).ops ∧
      (∀ d, MapOp.addSource s d ∉ (StyleCompareTiles.updateStyle old new st0).ops) ∧
      MapOp.removeSource s ∉ (StyleCompareTiles.updateStyle old new st0).ops := by
  have hsN : s ∈ objKeys new.sources := lookupKey_eq_some_mem hn
  have hsO : s ∈ objKeys old.sources := lookupKey_eq_some_mem ho
  have h1 : (StyleCompareTiles.phase1 old new st0).2.getSource s = st0.getSource s := by
    have he : (StyleCompareTiles.phase1 old new st0).2
        = applyMapOps st0 (StyleCompareTiles.phase1 old new st0).1 := by
      simp only [StyleCompareTiles.phase1]
      exact phaseFold_snd_eq
    rw [he]
    refine applyMapOps_getSource_preserve ?_
    intro op hop
    obtain ⟨st2, a, _, hmem⟩ := phaseFold_ops_mem hop
    rw [depLayerRemovalStep_shape hmem]
    trivial
  have h2 : (StyleCompareTiles.phase2 old new st0).2.getSource s
      = (StyleCompareTiles.phase1 old new st0).2.getSource s := by
    have he : (StyleCompareTiles.phase2 old new st0).2
        = applyMapOps (StyleCompareTiles.phase1 old new st0).2
            (StyleCompareTiles.phase2 old new st0).1 := by
      simp only [StyleCompareTiles.phase2]
      exact phaseFold_snd_eq
    rw [he]
    refine applyMapOps_getSource_preserve ?_
    intro op hop
    obtain ⟨st2, a, ha, hmem⟩ := phaseFold_ops_mem hop
    rw [sourceRemovalStep_shape hmem]
    show a ≠ s
    intro he2
    subst he2
    exact (mem_sourcesToRemove.mp ha).2 hsN
  have h3 : (StyleCompareTiles.phase3 old new st0).2.getSource s
      = (StyleCompareTiles.phase2 old new st0).2.getSource s := by
    have he : (StyleCompareTiles.phase3 old new st0).2
        = applyMapOps (StyleCompareTiles.phase2 old new st0).2
            (StyleCompareTiles.phase3 old new st0).1 := by
      simp only [StyleCompareTiles.phase3]
      exact phaseFold_snd_eq
    rw [he]
    refine applyMapOps_getSource_preserve ?_
    intro op hop
    obtain ⟨st2, a, ha, hmem⟩ := phaseFold_ops_mem hop
    obtain ⟨d, hd⟩ := sourceAddStepChecked_shape hmem
    rw [hd]
    show a ≠ s
    intro he2
    subst he2
    exact (mem_sourcesToAdd.mp ha).2 hsO
  have hst3 : (StyleCompareTiles.phase3 old new st0).2.getSource s = some live := by
    rw [h3, h2, h1]
    exact hlive
  have hsE : s ∈ existingSourceKeys old new := by
    unfold existingSourceKeys
    exact List.mem_filter.mpr ⟨mem_jsSetList.mpr hsN, by simpa using hsO⟩
  have hndE : (existingSourceKeys old new).Nodup := List.Nodup.filter _ nodup_jsSetList
  have htotal := tileUpdateStep_total htiles
  have hmem4 : MapOp.setTiles s nu ∈ (StyleCompareTiles.phase4 old new st0).1 := by
    simp only [StyleCompareTiles.phase4]
    exact setTiles_mem_scan ho hn hot hnt hotiles hntiles hdiff htotal hsE hndE hst3 hrt
  refine ⟨?_, ?_, ?_⟩
  · unfold StyleCompareTiles.updateStyle
    split
    · simp only [List.mem_append]
      exact Or.inr hmem4
    · simp only [List.mem_append]
      exact Or.inl (Or.inl (Or.inl (Or.inr hmem4)))
  · intro d hd
    rcases tiles_ops_mem_cases hd with ⟨i, h⟩ | ⟨k, hk, h⟩ | ⟨k, d2, hk, h⟩ |
        ⟨k, u, hk, h⟩ | ⟨b, h⟩ | ⟨i, k, v, h⟩ | ⟨i, k, v, h⟩ | ⟨i, f, h⟩
    · exact MapOp.noConfusion h
    · exact MapOp.noConfusion h
    · injection h with h1 h2
      subst h1
      exact (mem_sourcesToAdd.mp hk).2 hsO
    · exact MapOp.noConfusion h
    · exact MapOp.noConfusion h
    · exact MapOp.noConfusion h
    · exact MapOp.noConfusion h
    · exact MapOp.noConfusion h
  · intro hd
    rcases tiles_ops_mem_cases hd with ⟨i, h⟩ | ⟨k, hk, h⟩ | ⟨k, d2, hk, h⟩ |
        ⟨k, u, hk, h⟩ | ⟨b, h⟩ | ⟨i, k, v, h⟩ | ⟨i, k, v, h⟩ | ⟨i, f, h⟩
    · exact MapOp.noConfusion h
    · injection h with h1
      subst h1
      exact (mem_sourcesToRemove.mp hk).2 hsN
    · exact MapOp.noConfusion h
    · exact MapOp.noConfusion h
    · exact MapOp.noConfusion h
    · exact MapOp.noConfusion h
    · exact MapOp.noConfusion h
    · exact MapOp.noConfusion h

/-- Witness for `updateStyle_setTiles_in_place`: one shared raster source
`s`, tiles changed from `["o"]` to `["n"]`, live map in sync. -/
theorem updateStyle_setTiles_in_place_witness :
    MapOp.setTiles "s" ["n"] ∈ (StyleCompareTiles.updateStyle
        ⟨[("s", ⟨"raster", some ["o"]⟩)], []⟩ ⟨[("s", ⟨"raster", some ["n"]⟩)], []⟩
        ⟨[], [("s", ⟨"raster", some ["o"]⟩)]⟩).ops ∧
      (∀ d, MapOp.addSource "s" d ∉ (StyleCompareTiles.updateStyle
        ⟨[("s", ⟨"raster", some ["o"]⟩)], []⟩ ⟨[("s", ⟨"raster", some ["n"]⟩)], []⟩
        ⟨[], [("s", ⟨"raster", some ["o"]⟩)]⟩).ops) ∧
      MapOp.removeSource "s" ∉ (StyleCompareTiles.updateStyle
        ⟨[("s", ⟨"raster", some ["o"]⟩)], []⟩ ⟨[("s", ⟨"raster", some ["n"]⟩)], []⟩
        ⟨[], [("s", ⟨"raster", some ["o"]⟩)]⟩).ops :=
  updateStyle_setTiles_in_place
    ⟨[("s", ⟨"raster", some ["o"]⟩)], []⟩ ⟨[("s", ⟨"raster", some ["n"]⟩)], []⟩
    ⟨[], [("s", ⟨"raster", some ["o"]⟩)]⟩ "s"
    ⟨"raster", some ["o"]⟩ ⟨"raster", some ["n"]⟩ ⟨"raster", some ["o"]⟩ ["o"] ["n"]
    (by decide) (by decide) rfl rfl rfl rfl (by decide) (by decide) rfl
    (by
      intro k dn dc hk1 hk2 _ _
      rw [lookupKey_cons] at hk1 hk2
      by_cases hk : ("s" == k) = true
      · rw [if_pos hk] at hk1 hk2
        cases hk1
        cases hk2
        exact ⟨⟨["n"], rfl⟩, ⟨["o"], rfl⟩⟩
      · rw [if_neg hk] at hk1
        cases hk1)

end ClaimC3

end MapCompareVerify
